import Mathlib

/-!
# Photo to Cartoon / Plastic Wrap: GEGL meta-operation graphs

A shallow embedding of the three GEGL meta operations of the repository

* `src/photo2cartoon.c`                 (namespace `Photo2Cartoon.Flat`)
* `src/photo2cartoon/photo2cartoon.c`   (namespace `Photo2Cartoon.Nested`)
* `src/plastic_wrapping.c`              (namespace `PlasticWrapping`)

Each file declares a property block, an `attach` function that creates the
child nodes, registers the property redirects and (in two of the files) links
the nodes, and, for the two tone-mapping files, an `update_graph` function that
re-links the nodes according to the `blendmode` property.

The GEGL library itself is not part of the repository.  The few library
primitives the three files call are modelled in namespace `Gegl`.
-/

namespace Gegl

/-- The input pads used by the three files: the primary pad `"input"` and the
auxiliary pad `"aux"`. -/
inductive Pad where
  | input
  | aux
  deriving DecidableEq, Repr

/-- Values stored in node properties. Doubles are kept as the exact rational
value of the decimal literal written in the source. -/
inductive GValue where
  | int (i : Int)
  | double (q : ℚ)
  | string (s : String)
  | boolean (b : Bool)
  deriving DecidableEq

/-- Modelled from the spec: the link structure kept by the GEGL library, which
is not under src/. An input pad (primary or aux) of a node holds at most one
connection, so the links are a table from (sink node, input pad) to the source
node whose output feeds it; an output may feed any number of pads. -/
@[ext]
structure Graph (N : Type) where
  source : N → Pad → Option N

/-- A graph without any connection. -/
def Graph.empty {N : Type} : Graph N := ⟨fun _ _ => none⟩

/-- Modelled from the spec: the library call
`gegl_node_connect_from (sink, pad, source, "output")`, not under src/. The
pad of the sink is (re)connected to the output of the source; a connection the
pad had before is replaced, every other connection is left as it is. -/
def gegl_node_connect_from {N : Type} [DecidableEq N]
    (g : Graph N) (sink : N) (pad : Pad) (source : N) : Graph N :=
  ⟨fun n p => if n = sink ∧ p = pad then some source else g.source n p⟩

/-- Modelled from the spec: the library call
`gegl_node_connect (a, pad, b, "output")` with an input pad of `a` and the
output pad of `b`, as `src/plastic_wrapping.c` uses it; it makes the same
connection as `gegl_node_connect_from`. -/
def gegl_node_connect {N : Type} [DecidableEq N]
    (g : Graph N) (a : N) (pad : Pad) (b : N) : Graph N :=
  gegl_node_connect_from g a pad b

/-- Modelled from the spec: the library call `gegl_node_link (source, sink)`,
which connects the output of the source to the primary input of the sink. -/
def gegl_node_link {N : Type} [DecidableEq N]
    (g : Graph N) (source sink : N) : Graph N :=
  gegl_node_connect_from g sink Pad.input source

/-- Modelled from the spec: the library call
`gegl_node_link_many (n1, n2, ..., NULL)`, which links each node of the
argument list to the next one, from left to right. -/
def gegl_node_link_many {N : Type} [DecidableEq N] (g : Graph N) : List N → Graph N
  | a :: b :: rest => gegl_node_link_many (gegl_node_link g a b) (b :: rest)
  | _ => g

/-- One `gegl_operation_meta_redirect (operation, name, internal,
internal_name)` registration. -/
structure Redirect (N : Type) where
  name : String
  internal : N
  internal_name : String
  deriving DecidableEq

/-- The container node `operation->node` of a meta operation: the children
created so far (with operation name and literal properties), the connections
among them, the current property values of the children, and the registered
redirects. -/
structure MetaNode (N : Type) where
  children : List (N × String)
  props : N → String → Option GValue
  graph : Graph N
  redirects : List (Redirect N)

/-- A container node without children. -/
def MetaNode.empty {N : Type} : MetaNode N :=
  { children := [], props := fun _ _ => none, graph := Graph.empty, redirects := [] }

/-- Writes a list of (property, value) pairs into the property table of a node,
from left to right. -/
def set_props {N : Type} [DecidableEq N]
    (props : N → String → Option GValue) (n : N) :
    List (String × GValue) → N → String → Option GValue
  | [] => props
  | (k, v) :: rest =>
    set_props (fun m s => if m = n ∧ s = k then some v else props m s) n rest

/-- Modelled from the spec: the library call
`gegl_node_new_child (gegl, "operation", op, k1, v1, ..., NULL)`. The node
`n` stands for the fresh node the call returns. -/
def gegl_node_new_child {N : Type} [DecidableEq N]
    (gegl : MetaNode N) (n : N) (op : String) (literals : List (String × GValue)) :
    MetaNode N :=
  { gegl with
    children := gegl.children ++ [(n, op)]
    props := set_props gegl.props n literals }

/-- Modelled from the spec: the library call
`gegl_operation_meta_redirect (operation, name, internal, internal_name)`,
which appends one entry to the redirect table. -/
def gegl_operation_meta_redirect {N : Type}
    (gegl : MetaNode N) (name : String) (internal : N) (internal_name : String) :
    MetaNode N :=
  { gegl with redirects := gegl.redirects ++ [⟨name, internal, internal_name⟩] }

/-- Walks from a node towards the sources along primary links, collecting the
nodes met, the start included. The walk stops where a primary input is not
connected or the fuel is used up. -/
def upstream {N : Type} (g : Graph N) : Nat → N → List N
  | 0, n => [n]
  | fuel + 1, n =>
    match g.source n Pad.input with
    | none => [n]
    | some m => n :: upstream g fuel m

/-- A primary path from `s` to `t`: a list of nodes that starts at `s`, ends at
`t`, and in which the output of each node feeds the primary input of the
next. -/
def PrimaryPath {N : Type} (g : Graph N) (s t : N) (l : List N) : Prop :=
  l.head? = some s ∧ l.getLast? = some t ∧
  List.Chain' (fun a b => g.source b Pad.input = some a) l

/-- A link of either kind: the output of `a` feeds an input pad of `b`. -/
def Feeds {N : Type} (g : Graph N) (a b : N) : Prop :=
  ∃ p, g.source b p = some a

/-- A primary link: the output of `a` feeds the primary input of `b`. -/
def FeedsPrimary {N : Type} (g : Graph N) (a b : N) : Prop :=
  g.source b Pad.input = some a

/-- No node reaches itself along one or more links of either kind. -/
def Acyclic {N : Type} (g : Graph N) : Prop :=
  ∀ n, ¬ Relation.TransGen (Feeds g) n n

/-- No node reaches itself along one or more primary links. -/
def AcyclicPrimary {N : Type} (g : Graph N) : Prop :=
  ∀ n, ¬ Relation.TransGen (FeedsPrimary g) n n

/-- Every link goes from a node of smaller rank to a node of larger rank. -/
def Ranked {N : Type} (r : N → Nat) (g : Graph N) : Prop :=
  ∀ sink pad src, g.source sink pad = some src → r src < r sink

/-- The node `a` reaches the node `b` along zero or more links of either
kind. -/
def Reaches {N : Type} (g : Graph N) (a b : N) : Prop :=
  Relation.ReflTransGen (Feeds g) a b

/-- The node `a` reaches the node `b` along zero or more primary links. -/
def ReachesPrimary {N : Type} (g : Graph N) (a b : N) : Prop :=
  Relation.ReflTransGen (FeedsPrimary g) a b

/-- Two graphs have the same sub-graph feeding `t`: the same nodes reach `t`
along links of either kind, and each such node has the same source at each of
its input pads in both graphs. -/
def SameFeeding {N : Type} (g h : Graph N) (t : N) : Prop :=
  ∀ n, (Reaches g n t ↔ Reaches h n t) ∧ (Reaches g n t → ∀ p, g.source n p = h.source n p)

/-- The four property declaration macros the files use. -/
inductive PropKind where
  | enum
  | double
  | int
  | string
  deriving DecidableEq, Repr

/-- One property declaration of a `GEGL_PROPERTIES` block: the name, the
declaring macro, the default, and the `value_range` and `ui_range` lines that
follow it, each in source order. -/
structure Property where
  name : String
  kind : PropKind
  default : GValue
  value_ranges : List (ℚ × ℚ)
  ui_ranges : List (ℚ × ℚ)

/-- The effective value range of a property: a `value_range` line assigns the
minimum and maximum of the property, so the last such line stands. -/
def Property.value_range (p : Property) : Option (ℚ × ℚ) :=
  p.value_ranges.getLast?

/-- The number held by an integer or double value. -/
def GValue.number : GValue → Option ℚ
  | GValue.int i => some (i : ℚ)
  | GValue.double q => some q
  | _ => none

/-- Whether a value lies in the effective range of a property, both bounds
included; a property without a range accepts every value. -/
def Property.in_range (p : Property) (v : GValue) : Bool :=
  match p.value_range with
  | none => true
  | some (lo, hi) =>
    match v.number with
    | none => false
    | some q => decide (lo ≤ q ∧ q ≤ hi)

/-- What the listing of a parameter surface says of a property: name, type,
effective range, default. -/
def Property.listing (p : Property) : String × PropKind × Option (ℚ × ℚ) × GValue :=
  (p.name, p.kind, p.value_range, p.default)

/-- The targets the redirect table binds to an exposed name, in registration
order. -/
def redirect_targets {N : Type} (gegl : MetaNode N) (name : String) : List (N × String) :=
  (gegl.redirects.filter (fun r => r.name = name)).map (fun r => (r.internal, r.internal_name))

/-- The redirect keys that are not among the declared property names, in
registration order. -/
def undeclared_keys {N : Type} (properties : List Property) (gegl : MetaNode N) :
    List String :=
  (gegl.redirects.map (fun r => r.name)).filter
    (fun k => decide (k ∉ properties.map (fun p => p.name)))

/-- Every key of the redirect table is the name of a declared property. -/
def keys_declared {N : Type} (properties : List Property) (gegl : MetaNode N) : Bool :=
  gegl.redirects.all (fun r => decide (r.name ∈ properties.map (fun p => p.name)))

/-- Every target node of the redirect table is among the created children. -/
def targets_created {N : Type} [DecidableEq N] (gegl : MetaNode N) : Bool :=
  gegl.redirects.all (fun r => decide (r.internal ∈ gegl.children.map (fun c => c.1)))

/-- Every declared property other than the mode selector is the key of at
least one redirect. -/
def properties_redirected {N : Type} (selector : String) (properties : List Property)
    (gegl : MetaNode N) : Bool :=
  properties.all (fun p =>
    decide (p.name = selector ∨ p.name ∈ gegl.redirects.map (fun r => r.name)))

/-- Writes one value into every listed (node, property) target. -/
def write_targets {N : Type} [DecidableEq N]
    (props : N → String → Option GValue) (v : GValue) :
    List (N × String) → N → String → Option GValue
  | [] => props
  | (n, k) :: rest =>
    write_targets (fun m s => if m = n ∧ s = k then some v else props m s) v rest

/-- The outcome of rejecting a value. -/
inductive ApplyError where
  | RangeError
  deriving DecidableEq, Repr

/-- Modelled from the spec: `apply (graph, exposed_name, value)` of the
parameter redirector, which the library performs and no file under src/
contains. A value outside the declared range is rejected and nothing is
written; a value in range is written into every target bound to the exposed
name. -/
def apply {N : Type} [DecidableEq N]
    (p : Property) (gegl : MetaNode N) (v : GValue) : Except ApplyError (MetaNode N) :=
  if p.in_range v then
    Except.ok { gegl with props := write_targets gegl.props v (redirect_targets gegl p.name) }
  else
    Except.error ApplyError.RangeError

end Gegl

namespace Photo2Cartoon

open Gegl

/-- The sixteen nodes of the tone-mapping graph, named after the local
variables of `attach`, proxies first and then in order of creation. The two
files create the same nodes in the same order. -/
inductive Node where
  | input | output
  | nop | multiply | hardlight | overlay | lightchroma | mcb
  | gegl1 | gegl2 | gegl3 | gegl4 | levels | nr | dog | smooth
  deriving DecidableEq, Repr

/-- The `State` record of both files: the saved node references. -/
structure State where
  input : Node
  nop : Node
  nr : Node
  gegl1 : Node
  dog : Node
  gegl2 : Node
  levels : Node
  gegl3 : Node
  hardlight : Node
  multiply : Node
  overlay : Node
  lightchroma : Node
  gegl4 : Node
  smooth : Node
  mcb : Node
  output : Node
  deriving DecidableEq

/-- Values of the enum `GeglBlendModeType2`, numbered in declaration order. -/
def GEGL_BLEND_MODE_TYPE_HARDLIGHT : Int := 0

/-- Second value of the enum `GeglBlendModeType2`. -/
def GEGL_BLEND_MODE_TYPE_MULTIPLY : Int := 1

/-- Third value of the enum `GeglBlendModeType2`. -/
def GEGL_BLEND_MODE_TYPE_OVERLAY : Int := 2

/-- The part of `GeglProperties` that `attach` and `update_graph` use: the mode
selector (an enum, so an integer) and the `user_data` pointer, NULL before
`attach`. -/
structure GeglProperties where
  blendmode : Int
  user_data : Option State

/-- The meta operation: its container node and its properties. -/
structure GeglOperation where
  node : MetaNode Node
  o : GeglProperties

/-- The operation as it is before `attach`: a container node without children,
`blendmode` at its declared default, `user_data` NULL. -/
def GeglOperation.fresh : GeglOperation :=
  { node := MetaNode.empty
    o := { blendmode := GEGL_BLEND_MODE_TYPE_HARDLIGHT, user_data := none } }

/-- Sets the `blendmode` property. -/
def GeglOperation.set_blendmode (operation : GeglOperation) (m : Int) : GeglOperation :=
  { operation with o := { operation.o with blendmode := m } }

/-- The node creation part of `attach`, the same in both files but for the
`"string"` literal of the four `gegl:gegl` nodes, which only
`src/photo2cartoon.c` passes. -/
def create_children (gegl : MetaNode Node) (strings : Bool) : MetaNode Node :=
  let lit (s : String) : List (String × GValue) :=
    if strings then [("string", GValue.string s)] else []
  let gegl := gegl_node_new_child gegl Node.nop "gegl:nop" []
  let gegl := gegl_node_new_child gegl Node.multiply "gegl:multiply" []
  let gegl := gegl_node_new_child gegl Node.hardlight "gegl:hard-light" []
  let gegl := gegl_node_new_child gegl Node.overlay "gegl:overlay"
    [("srgb", GValue.boolean true)]
  let gegl := gegl_node_new_child gegl Node.lightchroma "gegl:hue-chroma" []
  let gegl := gegl_node_new_child gegl Node.mcb "gegl:mean-curvature-blur" []
  let gegl := gegl_node_new_child gegl Node.gegl1 "gegl:gegl"
    (lit " noise-reduction domain-transform n-iterations=5  :\n")
  let gegl := gegl_node_new_child gegl Node.gegl2 "gegl:gegl"
    (lit " gimp:desaturate mode=value  :\n")
  let gegl := gegl_node_new_child gegl Node.gegl3 "gegl:gegl"
    (lit " invert-gamma rgb-clip  :\n")
  let gegl := gegl_node_new_child gegl Node.gegl4 "gegl:gegl"
    (lit " domain-transform domain-transform  domain-transform   :\n")
  let gegl := gegl_node_new_child gegl Node.levels "gegl:levels" []
  let gegl := gegl_node_new_child gegl Node.nr "gegl:noise-reduction" []
  let gegl := gegl_node_new_child gegl Node.dog "gegl:difference-of-gaussians" []
  gegl_node_new_child gegl Node.smooth "gegl:domain-transform" []

/-- The twelve `gegl_operation_meta_redirect` calls of `attach`, the same in
both files. -/
def register_redirects (gegl : MetaNode Node) : MetaNode Node :=
  let gegl := gegl_operation_meta_redirect gegl "in_high" Node.levels "in-high"
  let gegl := gegl_operation_meta_redirect gegl "in_low" Node.levels "in-low"
  let gegl := gegl_operation_meta_redirect gegl "smooth" Node.smooth "n-iterations"
  let gegl := gegl_operation_meta_redirect gegl "sat" Node.lightchroma "chroma"
  let gegl := gegl_operation_meta_redirect gegl "radius1" Node.dog "radius1"
  let gegl := gegl_operation_meta_redirect gegl "radius2" Node.dog "radius2"
  let gegl := gegl_operation_meta_redirect gegl "lightness" Node.lightchroma "lightness"
  let gegl := gegl_operation_meta_redirect gegl "mcb" Node.mcb "iterations"
  let gegl := gegl_operation_meta_redirect gegl "string1" Node.gegl1 "string"
  let gegl := gegl_operation_meta_redirect gegl "string2" Node.gegl2 "string"
  let gegl := gegl_operation_meta_redirect gegl "string3" Node.gegl3 "string"
  gegl_operation_meta_redirect gegl "string4" Node.gegl4 "string"

/-- The end of `attach` in both files: the node references are saved in a new
`State`. -/
def saved_state : State :=
  { input := Node.input, nop := Node.nop, nr := Node.nr, gegl1 := Node.gegl1,
    dog := Node.dog, gegl2 := Node.gegl2, levels := Node.levels, gegl3 := Node.gegl3,
    hardlight := Node.hardlight, multiply := Node.multiply, overlay := Node.overlay,
    lightchroma := Node.lightchroma, gegl4 := Node.gegl4, smooth := Node.smooth,
    mcb := Node.mcb, output := Node.output }

/-- The values of the enum `gegl_blend_mode_type2`: C identifier value, nick and
label, in declaration order. -/
def gegl_blend_mode_type2 : List (Int × String × String) :=
  [(GEGL_BLEND_MODE_TYPE_HARDLIGHT, "Hardlight", "HardLight"),
   (GEGL_BLEND_MODE_TYPE_MULTIPLY, "Multiply", "Multiply"),
   (GEGL_BLEND_MODE_TYPE_OVERLAY, "Overlay", "Overlay")]

/-- The nine property declarations that both tone-mapping files contain, from
`property_enum (blendmode, ...)` to `property_int (mcb, ...)`. -/
def common_properties : List Property :=
  [ { name := "blendmode", kind := PropKind.enum,
      default := GValue.int GEGL_BLEND_MODE_TYPE_HARDLIGHT,
      value_ranges := [], ui_ranges := [] },
    { name := "sat", kind := PropKind.double, default := GValue.double 1.3,
      value_ranges := [(0.0, 15.0)], ui_ranges := [(0.0, 15.0)] },
    { name := "lightness", kind := PropKind.double, default := GValue.double 0.0,
      value_ranges := [(-0, 18.0)], ui_ranges := [] },
    { name := "radius1", kind := PropKind.double, default := GValue.double 1.2,
      value_ranges := [(0.0, 4.0), (0.500, 2.00)], ui_ranges := [(0.0, 2.0)] },
    { name := "radius2", kind := PropKind.double, default := GValue.double 0.53,
      value_ranges := [(0.0, 4.0), (0.0, 0.6)], ui_ranges := [(0.0, 2.0)] },
    { name := "smooth", kind := PropKind.int, default := GValue.int 3,
      value_ranges := [(1, 5)], ui_ranges := [] },
    { name := "in_low", kind := PropKind.double, default := GValue.double 0.007,
      value_ranges := [(0.002, 0.010)], ui_ranges := [(0.002, 0.010)] },
    { name := "in_high", kind := PropKind.double, default := GValue.double 0.009,
      value_ranges := [(0.006, 0.030)], ui_ranges := [(0.006, 0.030)] },
    { name := "mcb", kind := PropKind.int, default := GValue.int 2,
      value_ranges := [(0, 4)], ui_ranges := [(0, 4)] } ]

/-- The declaration `property_double (in_low, ...)` of both tone-mapping
files. -/
def in_low : Property :=
  { name := "in_low", kind := PropKind.double, default := GValue.double 0.007,
    value_ranges := [(0.002, 0.010)], ui_ranges := [(0.002, 0.010)] }

/-- The declaration `property_double (in_high, ...)` of both tone-mapping
files. -/
def in_high : Property :=
  { name := "in_high", kind := PropKind.double, default := GValue.double 0.009,
    value_ranges := [(0.006, 0.030)], ui_ranges := [(0.006, 0.030)] }

/-- The exposed parameter surface of the tone-mapping graph as the
specification lists it: name, type, range, default. -/
def spec_surface : List (String × PropKind × Option (ℚ × ℚ) × GValue) :=
  [ ("blendmode", PropKind.enum, none, GValue.int GEGL_BLEND_MODE_TYPE_HARDLIGHT),
    ("sat", PropKind.double, some (0.0, 15.0), GValue.double 1.3),
    ("lightness", PropKind.double, some (0.0, 18.0), GValue.double 0.0),
    ("radius1", PropKind.double, some (0.5, 2.0), GValue.double 1.2),
    ("radius2", PropKind.double, some (0.0, 0.6), GValue.double 0.53),
    ("smooth", PropKind.int, some (1, 5), GValue.int 3),
    ("in_low", PropKind.double, some (0.002, 0.010), GValue.double 0.007),
    ("in_high", PropKind.double, some (0.006, 0.030), GValue.double 0.009),
    ("mcb", PropKind.int, some (0, 4), GValue.int 2) ]

/-- The primary chain of a graph: the nodes met walking from `output` towards
the sources along primary links, listed from the far end to `output`. -/
def primary_chain (g : Graph Node) : List Node :=
  (upstream g 16 Node.output).reverse

/-- The three alternative blend nodes. -/
def blend_nodes : List Node := [Node.hardlight, Node.multiply, Node.overlay]

/-- The blend node that the switch of `update_graph` selects for a value of
`blendmode`, in both files, once `attach` has saved the node references. -/
def usethis (blendmode : Int) : Node :=
  if blendmode = GEGL_BLEND_MODE_TYPE_MULTIPLY then Node.multiply
  else if blendmode = GEGL_BLEND_MODE_TYPE_OVERLAY then Node.overlay
  else Node.hardlight

/-- The expected primary chain with blend node `x` spliced in. -/
def chain_with (x : Node) : List Node :=
  [Node.input, Node.nop, Node.nr, Node.gegl1, Node.dog, Node.gegl2, Node.levels,
   Node.gegl3, x, Node.gegl4, Node.smooth, Node.mcb, Node.output]

/-- The shape of the tone-mapping graph with blend node `x` active: the primary
chain runs from `input` to `output` through `x`, the aux pad of `x` is fed by
`lightchroma`, and the input of `lightchroma` is fed by `nop`. -/
def tone_shape (g : Graph Node) (x : Node) : Prop :=
  primary_chain g = chain_with x ∧
  g.source x Pad.aux = some Node.lightchroma ∧
  g.source Node.lightchroma Pad.input = some Node.nop

instance (g : Graph Node) (x : Node) : Decidable (tone_shape g x) := by
  unfold tone_shape
  infer_instance

/-- Exactly one blend node is active: the primary chain starts at `input`, one
blend node lies on it and no other does, and that node sits between `gegl3` and
`gegl4`. -/
def exactly_one_active (g : Graph Node) : Prop :=
  (primary_chain g).head? = some Node.input ∧
  ∃ x ∈ blend_nodes,
    x ∈ primary_chain g ∧
    (∀ y ∈ blend_nodes, y ∈ primary_chain g → y = x) ∧
    g.source Node.gegl4 Pad.input = some x ∧
    g.source x Pad.input = some Node.gegl3

instance (g : Graph Node) : Decidable (exactly_one_active g) := by
  unfold exactly_one_active
  infer_instance

/-- Sets `blendmode` to each value of the list in turn and calls the given
`update_graph` after each change. -/
def run (update : GeglOperation → GeglOperation) (operation : GeglOperation) :
    List Int → GeglOperation
  | [] => operation
  | m :: ms => run update (update (operation.set_blendmode m)) ms

/-- A topological numbering of the tone-mapping nodes. -/
def rank : Node → Nat
  | Node.input => 0
  | Node.nop => 1
  | Node.nr => 2
  | Node.lightchroma => 2
  | Node.gegl1 => 3
  | Node.dog => 4
  | Node.gegl2 => 5
  | Node.levels => 6
  | Node.gegl3 => 7
  | Node.hardlight => 8
  | Node.multiply => 8
  | Node.overlay => 8
  | Node.gegl4 => 9
  | Node.smooth => 10
  | Node.mcb => 11
  | Node.output => 12

namespace Flat

/-- The `GEGL_PROPERTIES` block of `src/photo2cartoon.c`. -/
def properties : List Property := common_properties

/-- The function `update_graph` of `src/photo2cartoon.c`. Every branch of the
switch, the `default:` one included, assigns `usethis`, so the initial value
of `usethis` is never read. -/
def update_graph (operation : GeglOperation) : GeglOperation :=
  match operation.o.user_data with
  | none => operation
  | some state =>
    let usethis :=
      if operation.o.blendmode = GEGL_BLEND_MODE_TYPE_MULTIPLY then state.multiply
      else if operation.o.blendmode = GEGL_BLEND_MODE_TYPE_OVERLAY then state.overlay
      else state.hardlight
    let g := gegl_node_link_many operation.node.graph
      [state.input, state.nop, state.nr, state.gegl1, state.dog, state.gegl2,
       state.levels, state.gegl3, usethis, state.gegl4, state.smooth, state.mcb,
       state.output]
    let g := gegl_node_connect_from g usethis Pad.aux state.lightchroma
    let g := gegl_node_link_many g [state.nop, state.lightchroma]
    { operation with node := { operation.node with graph := g } }

/-- The function `attach` of `src/photo2cartoon.c`: it creates the children and
registers the redirects; its three linking calls are inside a comment, so it
makes no connection. -/
def attach (operation : GeglOperation) : GeglOperation :=
  let gegl := create_children operation.node true
  let gegl := register_redirects gegl
  { node := gegl, o := { operation.o with user_data := some saved_state } }

/-- The three linking calls of `update_graph` in `src/photo2cartoon.c`, on the
nodes `attach` saved and with blend node `x`. -/
def relink (x : Node) (g : Graph Node) : Graph Node :=
  let g := gegl_node_link_many g (chain_with x)
  let g := gegl_node_connect_from g x Pad.aux Node.lightchroma
  gegl_node_link_many g [Node.nop, Node.lightchroma]

/-- What stays true of the graph of `src/photo2cartoon.c` from `attach` on:
the input proxy has no source, only blend nodes have their aux pad fed, a
blend node feeds nothing but the input of `gegl4`, and every link goes up in
rank. -/
def Inv (g : Graph Node) : Prop :=
  g.source Node.input Pad.input = none ∧
  (∀ n, n ∉ blend_nodes → g.source n Pad.aux = none) ∧
  (∀ n p y, y ∈ blend_nodes → g.source n p = some y → n = Node.gegl4 ∧ p = Pad.input) ∧
  Ranked rank g

end Flat

namespace Nested

/-- The `GEGL_PROPERTIES` block of `src/photo2cartoon/photo2cartoon.c`: four
string properties come before the nine declarations shared with the other
file. -/
def properties : List Property :=
  [ { name := "string1", kind := PropKind.string,
      default := GValue.string " noise-reduction domain-transform n-iterations=5  :\n",
      value_ranges := [], ui_ranges := [] },
    { name := "string2", kind := PropKind.string,
      default := GValue.string " gimp:desaturate mode=value  :\n",
      value_ranges := [], ui_ranges := [] },
    { name := "string3", kind := PropKind.string,
      default := GValue.string " invert-gamma rgb-clip  :\n",
      value_ranges := [], ui_ranges := [] },
    { name := "string4", kind := PropKind.string,
      default := GValue.string " domain-transform domain-transform  domain-transform   :\n",
      value_ranges := [], ui_ranges := [] } ]
  ++ common_properties

/-- The function `update_graph` of `src/photo2cartoon/photo2cartoon.c`: the
switch has no default case and the link from `nop` to `lightchroma` is not
made again. -/
def update_graph (operation : GeglOperation) : GeglOperation :=
  match operation.o.user_data with
  | none => operation
  | some state =>
    let usethis := state.hardlight
    let usethis :=
      if operation.o.blendmode = GEGL_BLEND_MODE_TYPE_MULTIPLY then state.multiply
      else if operation.o.blendmode = GEGL_BLEND_MODE_TYPE_OVERLAY then state.overlay
      else usethis
    let g := gegl_node_link_many operation.node.graph
      [state.input, state.nop, state.nr, state.gegl1, state.dog, state.gegl2,
       state.levels, state.gegl3, usethis, state.gegl4, state.smooth, state.mcb,
       state.output]
    let g := gegl_node_connect_from g usethis Pad.aux state.lightchroma
    { operation with node := { operation.node with graph := g } }

/-- The function `attach` of `src/photo2cartoon/photo2cartoon.c`: it creates
the children, registers the redirects and links the default graph with
`hardlight` as blend node. -/
def attach (operation : GeglOperation) : GeglOperation :=
  let gegl := create_children operation.node false
  let gegl := register_redirects gegl
  let g := gegl_node_link_many gegl.graph
    [Node.input, Node.nop, Node.nr, Node.gegl1, Node.dog, Node.gegl2, Node.levels,
     Node.gegl3, Node.hardlight, Node.gegl4, Node.smooth, Node.mcb, Node.output]
  let g := gegl_node_connect_from g Node.hardlight Pad.aux Node.lightchroma
  let g := gegl_node_link_many g [Node.nop, Node.lightchroma]
  { node := { gegl with graph := g }, o := { operation.o with user_data := some saved_state } }

/-- The two linking calls of `update_graph` in
`src/photo2cartoon/photo2cartoon.c`, on the nodes `attach` saved and with blend
node `x`. -/
def relink (x : Node) (g : Graph Node) : Graph Node :=
  let g := gegl_node_link_many g (chain_with x)
  gegl_node_connect_from g x Pad.aux Node.lightchroma

/-- What stays true of the graph of `src/photo2cartoon/photo2cartoon.c` from
`attach` on: the input proxy has no source, `lightchroma` is fed by `nop`,
only blend nodes have their aux pad fed, a blend node feeds nothing but the
input of `gegl4`, and every link goes up in rank. -/
def Inv (g : Graph Node) : Prop :=
  g.source Node.input Pad.input = none ∧
  g.source Node.lightchroma Pad.input = some Node.nop ∧
  (∀ n, n ∉ blend_nodes → g.source n Pad.aux = none) ∧
  (∀ n p y, y ∈ blend_nodes → g.source n p = some y → n = Node.gegl4 ∧ p = Pad.input) ∧
  Ranked rank g

end Nested

/-- The links of the tone-mapping graph with blend node `x` spliced in and the
other two blend nodes left without any link: what the linking calls of
`update_graph` make on a graph without connections. -/
def canonical (x : Node) : Graph Node :=
  Flat.relink x Graph.empty

/-- The graph `g` has the blend node `x` spliced in: every node other than the
two remaining blend nodes has the sources of the canonical graph, and no pad is
fed by a blend node other than `x`. -/
def Spliced (g : Graph Node) (x : Node) : Prop :=
  x ∈ blend_nodes ∧
  (∀ n p, (n ∈ blend_nodes → n = x) → g.source n p = (canonical x).source n p) ∧
  (∀ n p y, y ∈ blend_nodes → g.source n p = some y → y = x)

end Photo2Cartoon


namespace PlasticWrapping

open Gegl

/-- The sixteen nodes of the wrap-effect graph, named after the local variables
of `attach`, proxies first and then in order of creation. -/
inductive Node where
  | input | output
  | idref | over | alphalockreplaceblendmode | alphalockreplaceblendmode2
  | idref3 | idref2 | normal | mcb | sl | nr | blur | gaussian | emboss | emboss2
  deriving DecidableEq, Repr

/-- The declaration `property_double (blurcontent, ...)`. -/
def blurcontent : Property :=
  { name := "blurcontent", kind := PropKind.double, default := GValue.double 0.0,
    value_ranges := [(0.0, 2.0)], ui_ranges := [(0.0, 2.0)] }

/-- The `GEGL_PROPERTIES` block of `src/plastic_wrapping.c`. The defaults of
`depth` and `depth2` are written `66.0` and `20.0` in integer properties. -/
def properties : List Property :=
  [ { name := "opacity", kind := PropKind.double, default := GValue.double 0.14,
      value_ranges := [(0.10, 1.00)], ui_ranges := [(0.10, 0.30)] },
    { name := "smoothcontent", kind := PropKind.int, default := GValue.int 3,
      value_ranges := [(1, 10)], ui_ranges := [(1, 10)] },
    blurcontent,
    { name := "tightness", kind := PropKind.double, default := GValue.double 4.8,
      value_ranges := [(2.0, 15.0)], ui_ranges := [(2.0, 15.0)] },
    { name := "azimuth", kind := PropKind.double, default := GValue.double 3.0,
      value_ranges := [(3.0, 90.0)], ui_ranges := [(3.0, 90.0)] },
    { name := "elevation", kind := PropKind.double, default := GValue.double 80.0,
      value_ranges := [(30.0, 90.0)], ui_ranges := [(30.0, 90.0)] },
    { name := "elevation2", kind := PropKind.double, default := GValue.double 20.0,
      value_ranges := [(10.0, 90.0)], ui_ranges := [(10.0, 90.0)] },
    { name := "depth", kind := PropKind.int, default := GValue.int 66,
      value_ranges := [(60, 100)], ui_ranges := [(60, 100)] },
    { name := "depth2", kind := PropKind.int, default := GValue.int 20,
      value_ranges := [(5, 40)], ui_ranges := [(5, 40)] },
    { name := "smoothall", kind := PropKind.int, default := GValue.int 2,
      value_ranges := [(0, 6)], ui_ranges := [(0, 6)] } ]

/-- The exposed parameter surface of the wrap-effect graph as the
specification lists it: name, type, range, default. -/
def spec_surface : List (String × PropKind × Option (ℚ × ℚ) × GValue) :=
  [ ("opacity", PropKind.double, some (0.10, 1.00), GValue.double 0.14),
    ("smoothcontent", PropKind.int, some (1, 10), GValue.int 3),
    ("blurcontent", PropKind.double, some (0.0, 2.0), GValue.double 0.0),
    ("tightness", PropKind.double, some (2.0, 15.0), GValue.double 4.8),
    ("azimuth", PropKind.double, some (3.0, 90.0), GValue.double 3.0),
    ("elevation", PropKind.double, some (30.0, 90.0), GValue.double 80.0),
    ("elevation2", PropKind.double, some (10.0, 90.0), GValue.double 20.0),
    ("depth", PropKind.int, some (60, 100), GValue.int 66),
    ("depth2", PropKind.int, some (5, 40), GValue.int 20),
    ("smoothall", PropKind.int, some (0, 6), GValue.int 2) ]

/-- The nodes of the primary chain of the wrap-effect graph, from `input` to
`output`. -/
def main_chain : List Node :=
  [Node.input, Node.idref, Node.over, Node.normal, Node.mcb, Node.sl, Node.output]

/-- The link set of the wrap-effect graph as the specification lists it, each
link as (source, sink, pad of the sink): the primary links first, then the
four aux links. -/
def spec_links : List (Node × Node × Pad) :=
  [ (Node.input, Node.idref, Pad.input), (Node.idref, Node.over, Pad.input),
    (Node.over, Node.normal, Pad.input), (Node.normal, Node.mcb, Pad.input),
    (Node.mcb, Node.sl, Pad.input), (Node.sl, Node.output, Pad.input),
    (Node.idref, Node.nr, Pad.input), (Node.nr, Node.idref2, Pad.input),
    (Node.idref2, Node.alphalockreplaceblendmode, Pad.input),
    (Node.idref2, Node.blur, Pad.input),
    (Node.idref, Node.idref3, Pad.input),
    (Node.idref3, Node.alphalockreplaceblendmode2, Pad.input),
    (Node.alphalockreplaceblendmode2, Node.emboss, Pad.input),
    (Node.emboss, Node.emboss2, Pad.input),
    (Node.idref3, Node.gaussian, Pad.input),
    (Node.alphalockreplaceblendmode, Node.over, Pad.aux),
    (Node.blur, Node.alphalockreplaceblendmode, Pad.aux),
    (Node.emboss2, Node.normal, Pad.aux),
    (Node.gaussian, Node.alphalockreplaceblendmode2, Pad.aux) ]

/-- A topological numbering of the wrap-effect nodes. -/
def rank : Node → Nat
  | Node.input => 0
  | Node.idref => 1
  | Node.nr => 2
  | Node.idref3 => 2
  | Node.idref2 => 3
  | Node.gaussian => 3
  | Node.blur => 4
  | Node.alphalockreplaceblendmode2 => 4
  | Node.alphalockreplaceblendmode => 5
  | Node.emboss => 5
  | Node.over => 6
  | Node.emboss2 => 6
  | Node.normal => 7
  | Node.mcb => 8
  | Node.sl => 9
  | Node.output => 10

/-- The meta operation: its container node. -/
structure GeglOperation where
  node : MetaNode Node

/-- The operation as it is before `attach`: a container node without children. -/
def GeglOperation.fresh : GeglOperation := { node := MetaNode.empty }

/-- The function `attach` of `src/plastic_wrapping.c`: it creates the children,
links them and registers the redirects. -/
def attach (operation : GeglOperation) : GeglOperation :=
  let gegl := operation.node
  let gegl := gegl_node_new_child gegl Node.idref "gegl:nop" []
  let gegl := gegl_node_new_child gegl Node.over "gegl:over" []
  let gegl := gegl_node_new_child gegl Node.alphalockreplaceblendmode "gegl:src-in" []
  let gegl := gegl_node_new_child gegl Node.alphalockreplaceblendmode2 "gegl:src-in" []
  let gegl := gegl_node_new_child gegl Node.idref3 "gegl:nop" []
  let gegl := gegl_node_new_child gegl Node.idref2 "gegl:nop" []
  let gegl := gegl_node_new_child gegl Node.normal "gimp:layer-mode"
    [("layer-mode", GValue.int 28)]
  let gegl := gegl_node_new_child gegl Node.mcb "gegl:mean-curvature-blur"
    [("iterations", GValue.int 2)]
  let gegl := gegl_node_new_child gegl Node.sl "gegl:gegl"
    [("string", GValue.string
      " id=y gimp:layer-mode layer-mode=softlight opacity=0.50 aux=[ ref=y ]")]
  let gegl := gegl_node_new_child gegl Node.nr "gegl:noise-reduction"
    [("iterations", GValue.int 2)]
  let gegl := gegl_node_new_child gegl Node.blur "gegl:gaussian-blur"
    [("std-dev-x", GValue.double 1.0), ("std-dev-y", GValue.double 1.0)]
  let gegl := gegl_node_new_child gegl Node.gaussian "gegl:gaussian-blur"
    [("std-dev-x", GValue.double 7.0), ("std-dev-y", GValue.double 7.0)]
  let gegl := gegl_node_new_child gegl Node.emboss "gegl:emboss"
    [("depth", GValue.int 98), ("elevation", GValue.double 30.0),
     ("azimuth", GValue.double 4.0)]
  let gegl := gegl_node_new_child gegl Node.emboss2 "gegl:emboss"
    [("depth", GValue.int 20), ("elevation", GValue.double 40.0)]
  let g := gegl.graph
  let g := gegl_node_link_many g
    [Node.input, Node.idref, Node.over, Node.normal, Node.mcb, Node.sl, Node.output]
  let g := gegl_node_connect g Node.over Pad.aux Node.alphalockreplaceblendmode
  let g := gegl_node_link_many g
    [Node.idref, Node.nr, Node.idref2, Node.alphalockreplaceblendmode]
  let g := gegl_node_link_many g [Node.idref2, Node.blur]
  let g := gegl_node_connect g Node.alphalockreplaceblendmode Pad.aux Node.blur
  let g := gegl_node_connect g Node.normal Pad.aux Node.emboss2
  let g := gegl_node_link_many g
    [Node.idref, Node.idref3, Node.alphalockreplaceblendmode2, Node.emboss, Node.emboss2]
  let g := gegl_node_connect g Node.alphalockreplaceblendmode2 Pad.aux Node.gaussian
  let g := gegl_node_link_many g [Node.idref3, Node.gaussian]
  let gegl := { gegl with graph := g }
  let gegl := gegl_operation_meta_redirect gegl "smoothcontent" Node.nr "iterations"
  let gegl := gegl_operation_meta_redirect gegl "blurcontent" Node.blur "std-dev-x"
  let gegl := gegl_operation_meta_redirect gegl "blurcontent" Node.blur "std-dev-y"
  let gegl := gegl_operation_meta_redirect gegl "tightness" Node.gaussian "std-dev-x"
  let gegl := gegl_operation_meta_redirect gegl "tightness" Node.gaussian "std-dev-y"
  let gegl := gegl_operation_meta_redirect gegl "elevation" Node.emboss "elevation"
  let gegl := gegl_operation_meta_redirect gegl "depth" Node.emboss "depth"
  let gegl := gegl_operation_meta_redirect gegl "depth2" Node.emboss2 "depth"
  let gegl := gegl_operation_meta_redirect gegl "azimuth" Node.emboss "azimuth"
  let gegl := gegl_operation_meta_redirect gegl "smoothall" Node.mcb "iterations"
  let gegl := gegl_operation_meta_redirect gegl "elevation2" Node.emboss2 "elevation"
  let gegl := gegl_operation_meta_redirect gegl "opacity" Node.normal "opacity"
  { node := gegl }

end PlasticWrapping

/-! ## Library lemmas -/

namespace Gegl

theorem connect_from_source {N : Type} [DecidableEq N] (g : Graph N) (sink : N) (pad : Pad)
    (src n : N) (p : Pad) :
    (gegl_node_connect_from g sink pad src).source n p
      = if n = sink ∧ p = pad then some src else g.source n p := rfl

theorem upstream_of_sources {N : Type} (g : Graph N) (s : N) (h0 : g.source s Pad.input = none)
    (r : List N) :
    ∀ (t : N) (fuel : Nat), r.head? = some t → r.getLast? = some s →
      List.Chain' (fun a b => g.source a Pad.input = some b) r → r.length ≤ fuel + 1 →
      upstream g fuel t = r := by
  induction r with
  | nil => intro t fuel ht; simp at ht
  | cons a rest ih =>
    intro t fuel ht hs hc hlen
    simp only [List.head?_cons, Option.some.injEq] at ht
    subst ht
    cases rest with
    | nil =>
      simp only [List.getLast?_singleton, Option.some.injEq] at hs
      subst hs
      cases fuel with
      | zero => rfl
      | succ f => simp [upstream, h0]
    | cons b rest2 =>
      rw [List.chain'_cons] at hc
      cases fuel with
      | zero => simp at hlen
      | succ f =>
        have hrec := ih b f rfl (by simpa [List.getLast?_cons_cons] using hs) hc.2
          (by simpa using hlen)
        simp [upstream, hc.1, hrec]

/-- The walk from `t` towards the sources finds every primary path into `t`
that starts at a node without primary source: such a path is unique. -/
theorem primaryPath_eq_upstream {N : Type} (g : Graph N) (s t : N) (l : List N) (fuel : Nat)
    (h0 : g.source s Pad.input = none) (hl : PrimaryPath g s t l)
    (hfuel : l.length ≤ fuel + 1) :
    l = (upstream g fuel t).reverse := by
  obtain ⟨hs, ht, hc⟩ := hl
  have h := upstream_of_sources g s h0 l.reverse t fuel
    (by simpa [List.head?_reverse] using ht)
    (by simpa [List.getLast?_reverse] using hs)
    (by
      rw [List.chain'_reverse]
      exact hc)
    (by simpa using hfuel)
  rw [h, List.reverse_reverse]

theorem mem_upstream_self {N : Type} (g : Graph N) (fuel : Nat) (t : N) :
    t ∈ upstream g fuel t := by
  cases fuel with
  | zero => simp [upstream]
  | succ f =>
    unfold upstream
    split <;> simp

theorem reachesPrimary_of_mem_upstream {N : Type} (g : Graph N) (fuel : Nat) (t n : N)
    (h : n ∈ upstream g fuel t) : ReachesPrimary g n t := by
  induction fuel generalizing t with
  | zero =>
    simp only [upstream, List.mem_singleton] at h
    subst h
    exact Relation.ReflTransGen.refl
  | succ f ih =>
    unfold upstream at h
    split at h
    · simp only [List.mem_singleton] at h
      subst h
      exact Relation.ReflTransGen.refl
    · rename_i m hm
      rcases List.mem_cons.mp h with rfl | h2
      · exact Relation.ReflTransGen.refl
      · exact Relation.ReflTransGen.tail (ih m h2) hm

theorem mem_of_reachesPrimary_closed {N : Type} (g : Graph N) (l : List N) (t n : N)
    (ht : t ∈ l) (hcl : ∀ b ∈ l, ∀ a, g.source b Pad.input = some a → a ∈ l)
    (h : ReachesPrimary g n t) : n ∈ l := by
  induction h using Relation.ReflTransGen.head_induction_on with
  | refl => exact ht
  | head hab _ ih => exact hcl _ ih _ hab

theorem reaches_of_reachesPrimary {N : Type} (g : Graph N) (a b : N)
    (h : ReachesPrimary g a b) : Reaches g a b :=
  Relation.ReflTransGen.mono (fun _ _ hab => ⟨Pad.input, hab⟩) h

theorem reachesPrimary_step {N : Type} (g : Graph N) (a b t : N)
    (hab : g.source b Pad.input = some a) (hb : ReachesPrimary g b t) :
    ReachesPrimary g a t :=
  Relation.ReflTransGen.head hab hb

theorem reaches_step {N : Type} (g : Graph N) (a b t : N) (p : Pad)
    (hab : g.source b p = some a) (hb : Reaches g b t) : Reaches g a t :=
  Relation.ReflTransGen.head ⟨p, hab⟩ hb

theorem ranked_empty {N : Type} (r : N → Nat) : Ranked r (Graph.empty : Graph N) := by
  intro sink pad src h
  simp [Graph.empty] at h

theorem ranked_connect_from {N : Type} [DecidableEq N] (r : N → Nat) (g : Graph N)
    (sink : N) (pad : Pad) (src : N) (hg : Ranked r g) (h : r src < r sink) :
    Ranked r (gegl_node_connect_from g sink pad src) := by
  intro n p a hs
  rw [connect_from_source] at hs
  split at hs
  · rename_i hc
    obtain ⟨rfl, rfl⟩ := hc
    cases hs
    exact h
  · exact hg n p a hs

theorem ranked_lt_of_transGen {N : Type} (r : N → Nat) (g : Graph N) (hg : Ranked r g)
    (a b : N) (h : Relation.TransGen (Feeds g) a b) : r a < r b := by
  induction h with
  | single hab =>
    obtain ⟨p, hp⟩ := hab
    exact hg _ p _ hp
  | tail _ hbc ih =>
    obtain ⟨p, hp⟩ := hbc
    exact lt_trans ih (hg _ p _ hp)

theorem acyclic_of_ranked {N : Type} (r : N → Nat) (g : Graph N) (hg : Ranked r g) :
    Acyclic g := by
  intro n h
  exact lt_irrefl _ (ranked_lt_of_transGen r g hg n n h)

theorem acyclicPrimary_of_acyclic {N : Type} (g : Graph N) (hg : Acyclic g) :
    AcyclicPrimary g := by
  intro n h
  apply hg n
  exact Relation.TransGen.mono (fun a b hab => ⟨Pad.input, hab⟩) h

end Gegl

/-! ## Tone-mapping graph -/

namespace Photo2Cartoon

open Gegl

theorem usethis_mem (m : Int) : usethis m ∈ blend_nodes := by
  unfold usethis blend_nodes
  split_ifs <;> simp

theorem usethis_cases (m : Int) :
    usethis m = Node.hardlight ∨ usethis m = Node.multiply ∨ usethis m = Node.overlay := by
  unfold usethis
  split_ifs <;> simp

theorem flat_update_graph_eq (operation : GeglOperation)
    (h : operation.o.user_data = some saved_state) :
    Flat.update_graph operation =
      { operation with node := { operation.node with
          graph := Flat.relink (usethis operation.o.blendmode) operation.node.graph } } := by
  unfold Flat.update_graph Flat.relink usethis chain_with
  rw [h]
  simp only [saved_state]

theorem nested_update_graph_eq (operation : GeglOperation)
    (h : operation.o.user_data = some saved_state) :
    Nested.update_graph operation =
      { operation with node := { operation.node with
          graph := Nested.relink (usethis operation.o.blendmode) operation.node.graph } } := by
  unfold Nested.update_graph Nested.relink usethis chain_with
  rw [h]
  simp only [saved_state]

/-- C1: in both files, `attach` followed by `update_graph` with `blendmode`
HardLight, Multiply or Overlay gives the primary chain input, nop, nr, gegl1,
dog, gegl2, levels, gegl3, alt, gegl4, smooth, mcb, output with alt the
hardlight, multiply or overlay node respectively, the aux pad of alt fed by
lightchroma and the input of lightchroma fed by nop. -/
theorem update_graph_after_attach_shape :
    tone_shape (Flat.update_graph ((Flat.attach GeglOperation.fresh).set_blendmode
        GEGL_BLEND_MODE_TYPE_HARDLIGHT)).node.graph Node.hardlight ∧
    tone_shape (Flat.update_graph ((Flat.attach GeglOperation.fresh).set_blendmode
        GEGL_BLEND_MODE_TYPE_MULTIPLY)).node.graph Node.multiply ∧
    tone_shape (Flat.update_graph ((Flat.attach GeglOperation.fresh).set_blendmode
        GEGL_BLEND_MODE_TYPE_OVERLAY)).node.graph Node.overlay ∧
    tone_shape (Nested.update_graph ((Nested.attach GeglOperation.fresh).set_blendmode
        GEGL_BLEND_MODE_TYPE_HARDLIGHT)).node.graph Node.hardlight ∧
    tone_shape (Nested.update_graph ((Nested.attach GeglOperation.fresh).set_blendmode
        GEGL_BLEND_MODE_TYPE_MULTIPLY)).node.graph Node.multiply ∧
    tone_shape (Nested.update_graph ((Nested.attach GeglOperation.fresh).set_blendmode
        GEGL_BLEND_MODE_TYPE_OVERLAY)).node.graph Node.overlay := by
  decide

/-- C2 (as stated, refuted): in `src/photo2cartoon.c` the graph right after
`attach` has no link at all, so its primary chain is `output` alone and the
default shape does not hold before the first `update_graph` call. -/
theorem flat_attach_not_linked :
    primary_chain (Flat.attach GeglOperation.fresh).node.graph = [Node.output] ∧
    ¬ tone_shape (Flat.attach GeglOperation.fresh).node.graph Node.hardlight := by
  decide

/-- C2 (amended): right after `attach` of `src/photo2cartoon/photo2cartoon.c`
the primary chain is input, nop, nr, gegl1, dog, gegl2, levels, gegl3,
hardlight, gegl4, smooth, mcb, output, nop feeds the input of lightchroma and
lightchroma feeds the aux pad of hardlight; `attach` of `src/photo2cartoon.c`
makes no link, and the same shape holds there after the first `update_graph`
call with the default `blendmode`. -/
theorem default_shape_after_build :
    tone_shape (Nested.attach GeglOperation.fresh).node.graph Node.hardlight ∧
    (∀ n p, (Flat.attach GeglOperation.fresh).node.graph.source n p = none) ∧
    tone_shape (Flat.update_graph (Flat.attach GeglOperation.fresh)).node.graph
      Node.hardlight := by
  refine ⟨by decide, ?_, by decide⟩
  intro n p
  rfl

/-- C3: in both files, for every operation and every integer value of
`blendmode` other than Multiply and Overlay, `update_graph` returns and leaves
the container node (children, properties, links, redirects) exactly as
`update_graph` with `blendmode` HardLight leaves it. -/
theorem update_graph_unrecognized_selector (operation : GeglOperation) (m : Int)
    (h1 : m ≠ GEGL_BLEND_MODE_TYPE_MULTIPLY) (h2 : m ≠ GEGL_BLEND_MODE_TYPE_OVERLAY) :
    (Flat.update_graph (operation.set_blendmode m)).node
      = (Flat.update_graph (operation.set_blendmode GEGL_BLEND_MODE_TYPE_HARDLIGHT)).node ∧
    (Nested.update_graph (operation.set_blendmode m)).node
      = (Nested.update_graph (operation.set_blendmode GEGL_BLEND_MODE_TYPE_HARDLIGHT)).node := by
  unfold Flat.update_graph Nested.update_graph GeglOperation.set_blendmode
  simp only
  cases operation.o.user_data with
  | none => exact ⟨rfl, rfl⟩
  | some state =>
    simp only [if_neg h1, if_neg h2]
    simp [GEGL_BLEND_MODE_TYPE_HARDLIGHT, GEGL_BLEND_MODE_TYPE_MULTIPLY,
      GEGL_BLEND_MODE_TYPE_OVERLAY]

/-- Witness for C3: the selector 7, outside the enum, on the attached graph of
each file. -/
theorem update_graph_unrecognized_selector_witness :
    (7 : Int) ≠ GEGL_BLEND_MODE_TYPE_MULTIPLY ∧ (7 : Int) ≠ GEGL_BLEND_MODE_TYPE_OVERLAY ∧
    (Flat.update_graph ((Flat.attach GeglOperation.fresh).set_blendmode 7)).node
      = (Flat.update_graph ((Flat.attach GeglOperation.fresh).set_blendmode
          GEGL_BLEND_MODE_TYPE_HARDLIGHT)).node ∧
    (Nested.update_graph ((Flat.attach GeglOperation.fresh).set_blendmode 7)).node
      = (Nested.update_graph ((Flat.attach GeglOperation.fresh).set_blendmode
          GEGL_BLEND_MODE_TYPE_HARDLIGHT)).node :=
  ⟨by decide, by decide,
    update_graph_unrecognized_selector (Flat.attach GeglOperation.fresh) 7
      (by decide) (by decide)⟩

theorem flat_relink_source (x : Node) (g : Graph Node) (n : Node) (p : Pad) :
    (Flat.relink x g).source n p =
      if n = Node.lightchroma ∧ p = Pad.input then some Node.nop
      else if n = x ∧ p = Pad.aux then some Node.lightchroma
      else if n = Node.output ∧ p = Pad.input then some Node.mcb
      else if n = Node.mcb ∧ p = Pad.input then some Node.smooth
      else if n = Node.smooth ∧ p = Pad.input then some Node.gegl4
      else if n = Node.gegl4 ∧ p = Pad.input then some x
      else if n = x ∧ p = Pad.input then some Node.gegl3
      else if n = Node.gegl3 ∧ p = Pad.input then some Node.levels
      else if n = Node.levels ∧ p = Pad.input then some Node.gegl2
      else if n = Node.gegl2 ∧ p = Pad.input then some Node.dog
      else if n = Node.dog ∧ p = Pad.input then some Node.gegl1
      else if n = Node.gegl1 ∧ p = Pad.input then some Node.nr
      else if n = Node.nr ∧ p = Pad.input then some Node.nop
      else if n = Node.nop ∧ p = Pad.input then some Node.input
      else g.source n p := rfl

theorem nested_relink_source (x : Node) (g : Graph Node) (n : Node) (p : Pad) :
    (Nested.relink x g).source n p =
      if n = x ∧ p = Pad.aux then some Node.lightchroma
      else if n = Node.output ∧ p = Pad.input then some Node.mcb
      else if n = Node.mcb ∧ p = Pad.input then some Node.smooth
      else if n = Node.smooth ∧ p = Pad.input then some Node.gegl4
      else if n = Node.gegl4 ∧ p = Pad.input then some x
      else if n = x ∧ p = Pad.input then some Node.gegl3
      else if n = Node.gegl3 ∧ p = Pad.input then some Node.levels
      else if n = Node.levels ∧ p = Pad.input then some Node.gegl2
      else if n = Node.gegl2 ∧ p = Pad.input then some Node.dog
      else if n = Node.dog ∧ p = Pad.input then some Node.gegl1
      else if n = Node.gegl1 ∧ p = Pad.input then some Node.nr
      else if n = Node.nr ∧ p = Pad.input then some Node.nop
      else if n = Node.nop ∧ p = Pad.input then some Node.input
      else g.source n p := rfl

theorem flat_inv_relink (m : Int) (g : Graph Node) (hg : Flat.Inv g) :
    Flat.Inv (Flat.relink (usethis m) g) := by
  obtain ⟨h0, ha, hb, hr⟩ := hg
  refine ⟨?_, ?_, ?_, ?_⟩
  · rw [flat_relink_source]
    rcases usethis_cases m with h | h | h <;> rw [h] <;> simpa using h0
  · intro n hn
    rw [flat_relink_source]
    have := ha n hn
    rcases usethis_cases m with h | h | h <;> rw [h] <;>
      cases n <;> simp [blend_nodes] at hn this ⊢ <;> exact this
  · intro n p y hy h
    rw [flat_relink_source] at h
    rcases usethis_cases m with hx | hx | hx <;> rw [hx] at h <;>
      cases n <;> cases p <;> simp [blend_nodes] at h hy ⊢ <;>
      first
        | exact absurd (hb _ _ _ (by simp [blend_nodes]; exact hy) h) (by simp)
        | (subst h; simp at hy)
  · intro n p y h
    rw [flat_relink_source] at h
    rcases usethis_cases m with hx | hx | hx <;> rw [hx] at h <;>
      cases n <;> cases p <;> simp at h <;>
      first
        | exact hr _ _ _ h
        | (subst h; decide)

theorem nested_inv_relink (m : Int) (g : Graph Node) (hg : Nested.Inv g) :
    Nested.Inv (Nested.relink (usethis m) g) := by
  obtain ⟨h0, hl, ha, hb, hr⟩ := hg
  refine ⟨?_, ?_, ?_, ?_, ?_⟩
  · rw [nested_relink_source]
    rcases usethis_cases m with h | h | h <;> rw [h] <;> simpa using h0
  · rw [nested_relink_source]
    rcases usethis_cases m with h | h | h <;> rw [h] <;> simpa using hl
  · intro n hn
    rw [nested_relink_source]
    have := ha n hn
    rcases usethis_cases m with h | h | h <;> rw [h] <;>
      cases n <;> simp [blend_nodes] at hn this ⊢ <;> exact this
  · intro n p y hy h
    rw [nested_relink_source] at h
    rcases usethis_cases m with hx | hx | hx <;> rw [hx] at h <;>
      cases n <;> cases p <;> simp [blend_nodes] at h hy ⊢ <;>
      first
        | exact absurd (hb _ _ _ (by simp [blend_nodes]; exact hy) h) (by simp)
        | (subst h; simp at hy)
  · intro n p y h
    rw [nested_relink_source] at h
    rcases usethis_cases m with hx | hx | hx <;> rw [hx] at h <;>
      cases n <;> cases p <;> simp at h <;>
      first
        | exact hr _ _ _ h
        | (subst h; decide)

theorem flat_inv_attach : Flat.Inv (Flat.attach GeglOperation.fresh).node.graph := by
  refine ⟨rfl, fun _ _ => rfl, ?_, ?_⟩
  · intro n p y _ h
    exact absurd h (by simp [Flat.attach, create_children, register_redirects,
      gegl_node_new_child, gegl_operation_meta_redirect, GeglOperation.fresh,
      MetaNode.empty, Graph.empty])
  · exact ranked_empty rank

theorem nested_attach_graph :
    (Nested.attach GeglOperation.fresh).node.graph
      = gegl_node_link_many (Nested.relink Node.hardlight Graph.empty)
          [Node.nop, Node.lightchroma] := rfl

theorem nested_inv_attach : Nested.Inv (Nested.attach GeglOperation.fresh).node.graph := by
  rw [nested_attach_graph]
  refine ⟨rfl, rfl, ?_, ?_, ?_⟩
  · intro n hn
    cases n <;> simp [blend_nodes] at hn ⊢ <;> rfl
  · intro n p y hy h
    cases n <;> cases p <;> cases y <;> simp [blend_nodes] at hy <;>
      first
        | exact ⟨rfl, rfl⟩
        | exact absurd h (by decide)
  · intro n p y h
    cases n <;> cases p <;> cases y <;>
      first
        | decide
        | exact absurd h (by decide)

theorem run_append (update : GeglOperation → GeglOperation) (operation : GeglOperation)
    (ms : List Int) (m : Int) :
    run update operation (ms ++ [m]) = update ((run update operation ms).set_blendmode m) := by
  induction ms generalizing operation with
  | nil => rfl
  | cons a rest ih => exact ih _

theorem flat_step (operation : GeglOperation) (m : Int)
    (h : operation.o.user_data = some saved_state) :
    (Flat.update_graph (operation.set_blendmode m)).o.user_data = some saved_state ∧
    (Flat.update_graph (operation.set_blendmode m)).node.graph
      = Flat.relink (usethis m) operation.node.graph := by
  rw [flat_update_graph_eq _ (show (operation.set_blendmode m).o.user_data = _ from h)]
  exact ⟨h, rfl⟩

theorem nested_step (operation : GeglOperation) (m : Int)
    (h : operation.o.user_data = some saved_state) :
    (Nested.update_graph (operation.set_blendmode m)).o.user_data = some saved_state ∧
    (Nested.update_graph (operation.set_blendmode m)).node.graph
      = Nested.relink (usethis m) operation.node.graph := by
  rw [nested_update_graph_eq _ (show (operation.set_blendmode m).o.user_data = _ from h)]
  exact ⟨h, rfl⟩

theorem flat_run_inv (ms : List Int) (operation : GeglOperation)
    (h : operation.o.user_data = some saved_state) (hg : Flat.Inv operation.node.graph) :
    (run Flat.update_graph operation ms).o.user_data = some saved_state ∧
    Flat.Inv (run Flat.update_graph operation ms).node.graph := by
  induction ms generalizing operation with
  | nil => exact ⟨h, hg⟩
  | cons a rest ih =>
    obtain ⟨h1, h2⟩ := flat_step operation a h
    exact ih _ h1 (by rw [h2]; exact flat_inv_relink a _ hg)

theorem nested_run_inv (ms : List Int) (operation : GeglOperation)
    (h : operation.o.user_data = some saved_state) (hg : Nested.Inv operation.node.graph) :
    (run Nested.update_graph operation ms).o.user_data = some saved_state ∧
    Nested.Inv (run Nested.update_graph operation ms).node.graph := by
  induction ms generalizing operation with
  | nil => exact ⟨h, hg⟩
  | cons a rest ih =>
    obtain ⟨h1, h2⟩ := nested_step operation a h
    exact ih _ h1 (by rw [h2]; exact nested_inv_relink a _ hg)

theorem flat_reachable (ms : List Int) :
    (run Flat.update_graph (Flat.attach GeglOperation.fresh) ms).o.user_data
      = some saved_state ∧
    Flat.Inv (run Flat.update_graph (Flat.attach GeglOperation.fresh) ms).node.graph :=
  flat_run_inv ms _ rfl flat_inv_attach

theorem nested_reachable (ms : List Int) :
    (run Nested.update_graph (Nested.attach GeglOperation.fresh) ms).o.user_data
      = some saved_state ∧
    Nested.Inv (run Nested.update_graph (Nested.attach GeglOperation.fresh) ms).node.graph :=
  nested_run_inv ms _ rfl nested_inv_attach

theorem flat_relink_idem (m : Int) (g : Graph Node) :
    Flat.relink (usethis m) (Flat.relink (usethis m) g) = Flat.relink (usethis m) g := by
  ext n p : 3
  rw [flat_relink_source, flat_relink_source]
  rcases usethis_cases m with h | h | h <;> rw [h] <;> cases n <;> cases p <;> simp

theorem nested_relink_idem (m : Int) (g : Graph Node) :
    Nested.relink (usethis m) (Nested.relink (usethis m) g)
      = Nested.relink (usethis m) g := by
  ext n p : 3
  rw [nested_relink_source, nested_relink_source]
  rcases usethis_cases m with h | h | h <;> rw [h] <;> cases n <;> cases p <;> simp

theorem flat_update_graph_set (operation : GeglOperation) (m : Int)
    (h : operation.o.user_data = some saved_state) :
    Flat.update_graph (operation.set_blendmode m) =
      { node := { operation.node with graph := Flat.relink (usethis m) operation.node.graph },
        o := { blendmode := m, user_data := some saved_state } } := by
  rw [flat_update_graph_eq _ (show (operation.set_blendmode m).o.user_data = _ from h)]
  simp only [GeglOperation.set_blendmode, h]

theorem nested_update_graph_set (operation : GeglOperation) (m : Int)
    (h : operation.o.user_data = some saved_state) :
    Nested.update_graph (operation.set_blendmode m) =
      { node := { operation.node with graph := Nested.relink (usethis m) operation.node.graph },
        o := { blendmode := m, user_data := some saved_state } } := by
  rw [nested_update_graph_eq _ (show (operation.set_blendmode m).o.user_data = _ from h)]
  simp only [GeglOperation.set_blendmode, h]

theorem flat_update_graph_twice (operation : GeglOperation) (m : Int)
    (h : operation.o.user_data = some saved_state) :
    Flat.update_graph ((Flat.update_graph (operation.set_blendmode m)).set_blendmode m)
      = Flat.update_graph (operation.set_blendmode m) := by
  rw [flat_update_graph_set _ m h, flat_update_graph_set _ m rfl]
  simp only [flat_relink_idem]

theorem nested_update_graph_twice (operation : GeglOperation) (m : Int)
    (h : operation.o.user_data = some saved_state) :
    Nested.update_graph ((Nested.update_graph (operation.set_blendmode m)).set_blendmode m)
      = Nested.update_graph (operation.set_blendmode m) := by
  rw [nested_update_graph_set _ m h, nested_update_graph_set _ m rfl]
  simp only [nested_relink_idem]

/-- C4: in both files, in every state reached from `attach` by any sequence of
`update_graph` calls and for every value of `blendmode`, calling `update_graph`
a second time with the same value leaves the whole operation (nodes, primary
links, aux links) as the first call left it. -/
theorem update_graph_idempotent (ms : List Int) (m : Int) :
    Flat.update_graph ((Flat.update_graph
        ((run Flat.update_graph (Flat.attach GeglOperation.fresh) ms).set_blendmode
          m)).set_blendmode m)
      = Flat.update_graph
          ((run Flat.update_graph (Flat.attach GeglOperation.fresh) ms).set_blendmode m) ∧
    Nested.update_graph ((Nested.update_graph
        ((run Nested.update_graph (Nested.attach GeglOperation.fresh) ms).set_blendmode
          m)).set_blendmode m)
      = Nested.update_graph
          ((run Nested.update_graph (Nested.attach GeglOperation.fresh) ms).set_blendmode m) :=
  ⟨flat_update_graph_twice _ m (flat_reachable ms).1,
   nested_update_graph_twice _ m (nested_reachable ms).1⟩

theorem flat_relink_chain (m : Int) (g : Graph Node)
    (h0 : g.source Node.input Pad.input = none) :
    primary_chain (Flat.relink (usethis m) g) = chain_with (usethis m) := by
  rcases usethis_cases m with h | h | h <;> rw [h] <;>
    simp [primary_chain, upstream, flat_relink_source, h0, chain_with]

theorem nested_relink_chain (m : Int) (g : Graph Node)
    (h0 : g.source Node.input Pad.input = none) :
    primary_chain (Nested.relink (usethis m) g) = chain_with (usethis m) := by
  rcases usethis_cases m with h | h | h <;> rw [h] <;>
    simp [primary_chain, upstream, nested_relink_source, h0, chain_with]

theorem flat_relink_active (m : Int) (g h : Graph Node) (hg : Flat.Inv g) (hh : Flat.Inv h)
    (n : Node) (p : Pad) (hn : n ∈ blend_nodes → n = usethis m) :
    (Flat.relink (usethis m) g).source n p = (Flat.relink (usethis m) h).source n p := by
  obtain ⟨g0, ga, _, _⟩ := hg
  obtain ⟨h0, ha, _, _⟩ := hh
  rw [flat_relink_source, flat_relink_source]
  rcases usethis_cases m with hx | hx | hx <;> rw [hx] at hn ⊢ <;>
    cases n <;> cases p <;> simp [blend_nodes] at hn ⊢ <;>
    first
      | rw [g0, h0]
      | rw [ga _ (by simp [blend_nodes]), ha _ (by simp [blend_nodes])]

theorem nested_relink_active (m : Int) (g h : Graph Node) (hg : Nested.Inv g)
    (hh : Nested.Inv h) (n : Node) (p : Pad) (hn : n ∈ blend_nodes → n = usethis m) :
    (Nested.relink (usethis m) g).source n p = (Nested.relink (usethis m) h).source n p := by
  obtain ⟨g0, gl, ga, _, _⟩ := hg
  obtain ⟨h0, hl, ha, _, _⟩ := hh
  rw [nested_relink_source, nested_relink_source]
  rcases usethis_cases m with hx | hx | hx <;> rw [hx] at hn ⊢ <;>
    cases n <;> cases p <;> simp [blend_nodes] at hn ⊢ <;>
    first
      | rw [g0, h0]
      | rw [gl, hl]
      | rw [ga _ (by simp [blend_nodes]), ha _ (by simp [blend_nodes])]

theorem flat_run_snoc_graph (ms : List Int) (m : Int) :
    (run Flat.update_graph (Flat.attach GeglOperation.fresh) (ms ++ [m])).node.graph
      = Flat.relink (usethis m)
          (run Flat.update_graph (Flat.attach GeglOperation.fresh) ms).node.graph := by
  rw [run_append]
  exact (flat_step _ m (flat_reachable ms).1).2

theorem nested_run_snoc_graph (ms : List Int) (m : Int) :
    (run Nested.update_graph (Nested.attach GeglOperation.fresh) (ms ++ [m])).node.graph
      = Nested.relink (usethis m)
          (run Nested.update_graph (Nested.attach GeglOperation.fresh) ms).node.graph := by
  rw [run_append]
  exact (nested_step _ m (nested_reachable ms).1).2

/-- C5 (as stated, refuted): in `src/photo2cartoon.c`, after `attach` and the
calls Multiply, HardLight the input of `multiply` is still fed by `gegl3` and
its aux pad by `lightchroma`, while after `attach` and the single call
HardLight `multiply` has no link; the two link sets differ. -/
theorem mode_switch_path_dependent :
    (run Flat.update_graph (Flat.attach GeglOperation.fresh)
        [GEGL_BLEND_MODE_TYPE_MULTIPLY, GEGL_BLEND_MODE_TYPE_HARDLIGHT]).node.graph.source
        Node.multiply Pad.input = some Node.gegl3 ∧
    (run Flat.update_graph (Flat.attach GeglOperation.fresh)
        [GEGL_BLEND_MODE_TYPE_MULTIPLY, GEGL_BLEND_MODE_TYPE_HARDLIGHT]).node.graph.source
        Node.multiply Pad.aux = some Node.lightchroma ∧
    (run Flat.update_graph (Flat.attach GeglOperation.fresh)
        [GEGL_BLEND_MODE_TYPE_HARDLIGHT]).node.graph.source Node.multiply Pad.input = none ∧
    (run Flat.update_graph (Flat.attach GeglOperation.fresh)
        [GEGL_BLEND_MODE_TYPE_HARDLIGHT]).node.graph.source Node.multiply Pad.aux = none ∧
    (run Flat.update_graph (Flat.attach GeglOperation.fresh)
        [GEGL_BLEND_MODE_TYPE_MULTIPLY, GEGL_BLEND_MODE_TYPE_HARDLIGHT]).node.graph
      ≠ (run Flat.update_graph (Flat.attach GeglOperation.fresh)
        [GEGL_BLEND_MODE_TYPE_HARDLIGHT]).node.graph := by
  refine ⟨by decide, by decide, by decide, by decide, ?_⟩
  intro h
  have h2 := congrArg (fun g => g.source Node.multiply Pad.input) h
  exact absurd h2 (by decide)

/-- C5 (amended): in both files, for every sequence of `blendmode` values
ending with `m`, the graph after `attach` and the whole sequence of
`update_graph` calls has, at every input and aux pad of every node other than
the two blend nodes that `m` does not select, the same source as the graph
after `attach` and the single call with `m`. -/
theorem mode_switch_path_independent_but_inactive (ms : List Int) (m : Int)
    (n : Node) (p : Pad) (hn : n ∈ blend_nodes → n = usethis m) :
    (run Flat.update_graph (Flat.attach GeglOperation.fresh) (ms ++ [m])).node.graph.source n p
      = (run Flat.update_graph (Flat.attach GeglOperation.fresh) [m]).node.graph.source n p ∧
    primary_chain (run Flat.update_graph (Flat.attach GeglOperation.fresh)
        (ms ++ [m])).node.graph
      = primary_chain (run Flat.update_graph (Flat.attach GeglOperation.fresh)
        [m]).node.graph ∧
    (run Nested.update_graph (Nested.attach GeglOperation.fresh)
        (ms ++ [m])).node.graph.source n p
      = (run Nested.update_graph (Nested.attach GeglOperation.fresh)
        [m]).node.graph.source n p ∧
    primary_chain (run Nested.update_graph (Nested.attach GeglOperation.fresh)
        (ms ++ [m])).node.graph
      = primary_chain (run Nested.update_graph (Nested.attach GeglOperation.fresh)
        [m]).node.graph := by
  refine ⟨?_, ?_, ?_, ?_⟩
  · rw [flat_run_snoc_graph, ← List.nil_append [m], flat_run_snoc_graph]
    exact flat_relink_active m _ _ (flat_reachable ms).2 (flat_reachable []).2 n p hn
  · rw [flat_run_snoc_graph, ← List.nil_append [m], flat_run_snoc_graph,
      flat_relink_chain m _ (flat_reachable ms).2.1,
      flat_relink_chain m _ (flat_reachable []).2.1]
  · rw [nested_run_snoc_graph, ← List.nil_append [m], nested_run_snoc_graph]
    exact nested_relink_active m _ _ (nested_reachable ms).2 (nested_reachable []).2 n p hn
  · rw [nested_run_snoc_graph, ← List.nil_append [m], nested_run_snoc_graph,
      nested_relink_chain m _ (nested_reachable ms).2.1,
      nested_relink_chain m _ (nested_reachable []).2.1]

/-- Witness for C5 (amended): the sequence Multiply, Overlay, HardLight against
the single call HardLight, at the input of `gegl4`. -/
theorem mode_switch_path_independent_but_inactive_witness :
    (Node.gegl4 ∈ blend_nodes → Node.gegl4 = usethis GEGL_BLEND_MODE_TYPE_HARDLIGHT) ∧
    (run Flat.update_graph (Flat.attach GeglOperation.fresh)
        ([GEGL_BLEND_MODE_TYPE_MULTIPLY, GEGL_BLEND_MODE_TYPE_OVERLAY]
          ++ [GEGL_BLEND_MODE_TYPE_HARDLIGHT])).node.graph.source Node.gegl4 Pad.input
      = (run Flat.update_graph (Flat.attach GeglOperation.fresh)
        [GEGL_BLEND_MODE_TYPE_HARDLIGHT]).node.graph.source Node.gegl4 Pad.input :=
  ⟨by decide,
    (mode_switch_path_independent_but_inactive
      [GEGL_BLEND_MODE_TYPE_MULTIPLY, GEGL_BLEND_MODE_TYPE_OVERLAY]
      GEGL_BLEND_MODE_TYPE_HARDLIGHT Node.gegl4 Pad.input (by decide)).1⟩

/-- A graph whose input proxy has no primary source has one primary path from
`input` to `output` at most, and `primary_chain` is that path. -/
theorem primary_chain_unique (g : Graph Node) (l : List Node)
    (h0 : g.source Node.input Pad.input = none)
    (hl : PrimaryPath g Node.input Node.output l) (hlen : l.length ≤ 17) :
    l = primary_chain g :=
  primaryPath_eq_upstream g Node.input Node.output l 16 h0 hl hlen

theorem exactly_one_active_of_chain (m : Int) (g : Graph Node)
    (hc : primary_chain g = chain_with (usethis m))
    (h4 : g.source Node.gegl4 Pad.input = some (usethis m))
    (h3 : g.source (usethis m) Pad.input = some Node.gegl3) :
    exactly_one_active g := by
  refine ⟨by rw [hc]; rfl, usethis m, usethis_mem m, ?_, ?_, h4, h3⟩
  · rw [hc]
    simp [chain_with]
  · intro y hy hyc
    rw [hc] at hyc
    rcases usethis_cases m with h | h | h <;> rw [h] at hyc ⊢ <;>
      simp [chain_with, blend_nodes] at hy hyc ⊢ <;>
      rcases hy with rfl | rfl | rfl <;> simp at hyc ⊢

theorem flat_relink_splice (m : Int) (g : Graph Node) :
    (Flat.relink (usethis m) g).source Node.gegl4 Pad.input = some (usethis m) ∧
    (Flat.relink (usethis m) g).source (usethis m) Pad.input = some Node.gegl3 := by
  rw [flat_relink_source, flat_relink_source]
  rcases usethis_cases m with h | h | h <;> rw [h] <;> simp

theorem nested_relink_splice (m : Int) (g : Graph Node) :
    (Nested.relink (usethis m) g).source Node.gegl4 Pad.input = some (usethis m) ∧
    (Nested.relink (usethis m) g).source (usethis m) Pad.input = some Node.gegl3 := by
  rw [nested_relink_source, nested_relink_source]
  rcases usethis_cases m with h | h | h <;> rw [h] <;> simp

/-- C6 (as stated, refuted): in `src/photo2cartoon.c` the state right after
`attach` (the empty sequence of `update_graph` calls) has no blend node on a
primary chain: the input of `gegl4` is fed by nothing. -/
theorem flat_attach_no_active_alternative :
    (Flat.attach GeglOperation.fresh).node.graph.source Node.gegl4 Pad.input = none ∧
    ¬ exactly_one_active (run Flat.update_graph (Flat.attach GeglOperation.fresh) []).node.graph := by
  decide

/-- C6 (amended): exactly one of hardlight, multiply, overlay lies on the
primary chain from input to output (the input of gegl4 is fed by it and its
input is fed by gegl3) in every state of `src/photo2cartoon/photo2cartoon.c`
reached from `attach` by any, possibly empty, sequence of `update_graph` calls,
and in every state of `src/photo2cartoon.c` reached from `attach` by a
sequence of at least one `update_graph` call. -/
theorem exactly_one_alternative_active (ms : List Int) (m : Int) :
    exactly_one_active (run Nested.update_graph (Nested.attach GeglOperation.fresh) ms).node.graph ∧
    exactly_one_active
      (run Flat.update_graph (Flat.attach GeglOperation.fresh) (ms ++ [m])).node.graph := by
  constructor
  · induction ms using List.reverseRecOn with
    | nil => decide
    | append_singleton rest a _ =>
      rw [nested_run_snoc_graph]
      exact exactly_one_active_of_chain a _
        (nested_relink_chain a _ (nested_reachable rest).2.1)
        (nested_relink_splice a _).1 (nested_relink_splice a _).2
  · rw [flat_run_snoc_graph]
    exact exactly_one_active_of_chain m _
      (flat_relink_chain m _ (flat_reachable ms).2.1)
      (flat_relink_splice m _).1 (flat_relink_splice m _).2

/-- C7 (as stated, refuted): in `src/photo2cartoon.c`, after `attach` and the
calls HardLight, Multiply the inactive node `hardlight` still has its input
fed by `gegl3` and its aux pad fed by `lightchroma`; only the input of `gegl4`
has moved to `multiply`. -/
theorem inactive_alternative_keeps_links :
    (run Flat.update_graph (Flat.attach GeglOperation.fresh)
        [GEGL_BLEND_MODE_TYPE_HARDLIGHT, GEGL_BLEND_MODE_TYPE_MULTIPLY]).node.graph.source
        Node.hardlight Pad.input = some Node.gegl3 ∧
    (run Flat.update_graph (Flat.attach GeglOperation.fresh)
        [GEGL_BLEND_MODE_TYPE_HARDLIGHT, GEGL_BLEND_MODE_TYPE_MULTIPLY]).node.graph.source
        Node.hardlight Pad.aux = some Node.lightchroma ∧
    (run Flat.update_graph (Flat.attach GeglOperation.fresh)
        [GEGL_BLEND_MODE_TYPE_HARDLIGHT, GEGL_BLEND_MODE_TYPE_MULTIPLY]).node.graph.source
        Node.gegl4 Pad.input = some Node.multiply := by
  decide

/-- C7 (amended): in both files, after `attach` and any sequence of
`update_graph` calls ending with `m`, the output of each of the two blend
nodes that `m` does not select feeds no input or aux pad of any node, and the
input of gegl4 is fed by the selected node. Nothing is said of the input and
aux pads of an inactive blend node: `update_graph` never disconnects them. -/
theorem inactive_alternative_feeds_nothing (ms : List Int) (m : Int) (y : Node)
    (hy : y ∈ blend_nodes) (hne : y ≠ usethis m) :
    (∀ n p, (run Flat.update_graph (Flat.attach GeglOperation.fresh)
        (ms ++ [m])).node.graph.source n p ≠ some y) ∧
    (run Flat.update_graph (Flat.attach GeglOperation.fresh)
        (ms ++ [m])).node.graph.source Node.gegl4 Pad.input = some (usethis m) ∧
    (∀ n p, (run Nested.update_graph (Nested.attach GeglOperation.fresh)
        (ms ++ [m])).node.graph.source n p ≠ some y) ∧
    (run Nested.update_graph (Nested.attach GeglOperation.fresh)
        (ms ++ [m])).node.graph.source Node.gegl4 Pad.input = some (usethis m) := by
  have hf := (flat_reachable (ms ++ [m])).2.2.2.1
  have hn := (nested_reachable (ms ++ [m])).2.2.2.2.1
  have sf := (flat_relink_splice m
    (run Flat.update_graph (Flat.attach GeglOperation.fresh) ms).node.graph).1
  have sn := (nested_relink_splice m
    (run Nested.update_graph (Nested.attach GeglOperation.fresh) ms).node.graph).1
  rw [← flat_run_snoc_graph] at sf
  rw [← nested_run_snoc_graph] at sn
  refine ⟨?_, sf, ?_, sn⟩
  · intro n p h
    obtain ⟨rfl, rfl⟩ := hf n p y hy h
    rw [sf] at h
    exact hne (Option.some.inj h).symm
  · intro n p h
    obtain ⟨rfl, rfl⟩ := hn n p y hy h
    rw [sn] at h
    exact hne (Option.some.inj h).symm

/-- Witness for C7 (amended): after the calls HardLight, Multiply the node
`hardlight` feeds nothing. -/
theorem inactive_alternative_feeds_nothing_witness :
    Node.hardlight ∈ blend_nodes ∧
    Node.hardlight ≠ usethis GEGL_BLEND_MODE_TYPE_MULTIPLY ∧
    (∀ n p, (run Flat.update_graph (Flat.attach GeglOperation.fresh)
        ([GEGL_BLEND_MODE_TYPE_HARDLIGHT] ++ [GEGL_BLEND_MODE_TYPE_MULTIPLY])).node.graph.source
        n p ≠ some Node.hardlight) :=
  ⟨by decide, by decide,
    (inactive_alternative_feeds_nothing [GEGL_BLEND_MODE_TYPE_HARDLIGHT]
      GEGL_BLEND_MODE_TYPE_MULTIPLY Node.hardlight (by decide) (by decide)).1⟩

theorem flat_inv_empty : Flat.Inv (Graph.empty : Graph Node) :=
  ⟨rfl, fun _ _ => rfl, fun _ _ _ _ h => absurd h (by simp [Graph.empty]), ranked_empty rank⟩

theorem flat_spliced (m : Int) (g : Graph Node) (hg : Flat.Inv g) :
    Spliced (Flat.relink (usethis m) g) (usethis m) := by
  refine ⟨usethis_mem m, ?_, ?_⟩
  · intro n p hn
    exact flat_relink_active m g Graph.empty hg flat_inv_empty n p hn
  · intro n p y hy h
    obtain ⟨rfl, rfl⟩ := (flat_inv_relink m g hg).2.2.1 n p y hy h
    rw [(flat_relink_splice m g).1] at h
    exact (Option.some.inj h).symm

theorem nested_relink_canonical (m : Int) (g : Graph Node) (hg : Nested.Inv g)
    (n : Node) (p : Pad) (hn : n ∈ blend_nodes → n = usethis m) :
    (Nested.relink (usethis m) g).source n p = (canonical (usethis m)).source n p := by
  obtain ⟨g0, gl, ga, _, _⟩ := hg
  unfold canonical
  rw [nested_relink_source, flat_relink_source]
  rcases usethis_cases m with hx | hx | hx <;> rw [hx] at hn ⊢ <;>
    cases n <;> cases p <;> simp [blend_nodes] at hn ⊢ <;>
    first
      | (rw [g0]; rfl)
      | rw [gl]
      | (rw [ga _ (by simp [blend_nodes])]; rfl)

theorem nested_spliced (m : Int) (g : Graph Node) (hg : Nested.Inv g) :
    Spliced (Nested.relink (usethis m) g) (usethis m) := by
  refine ⟨usethis_mem m, ?_, ?_⟩
  · intro n p hn
    exact nested_relink_canonical m g hg n p hn
  · intro n p y hy h
    obtain ⟨rfl, rfl⟩ := (nested_inv_relink m g hg).2.2.2.1 n p y hy h
    rw [(nested_relink_splice m g).1] at h
    exact (Option.some.inj h).symm

theorem spliced_not_reaches (g : Graph Node) (x y t : Node) (hs : Spliced g x)
    (hy : y ∈ blend_nodes) (hne : y ≠ x) (ht : t ∉ blend_nodes) : ¬ Reaches g y t := by
  intro h
  rcases Relation.ReflTransGen.cases_head h with rfl | ⟨b, ⟨p, hp⟩, _⟩
  · exact ht hy
  · exact hne (hs.2.2 b p y hy hp)

theorem spliced_source (g : Graph Node) (x n v : Node) (p : Pad) (hs : Spliced g x)
    (hn : n ∈ blend_nodes → n = x) (hv : (canonical x).source n p = some v) :
    g.source n p = some v := by
  rw [hs.2.1 n p hn]
  exact hv

theorem spliced_reaches_output (g : Graph Node) (x n : Node) (hs : Spliced g x)
    (hn : n ∈ blend_nodes → n = x) : Reaches g n Node.output := by
  have hx := hs.1
  simp only [blend_nodes, List.mem_cons, List.mem_singleton, List.not_mem_nil, or_false] at hx
  have o : Reaches g Node.output Node.output := Relation.ReflTransGen.refl
  rcases hx with rfl | rfl | rfl <;>
  · have mcb := reaches_step g _ Node.output _ Pad.input
      (spliced_source g _ _ Node.mcb _ hs (by decide) rfl) o
    have smooth := reaches_step g _ Node.mcb _ Pad.input
      (spliced_source g _ _ Node.smooth _ hs (by decide) rfl) mcb
    have gegl4 := reaches_step g _ Node.smooth _ Pad.input
      (spliced_source g _ _ Node.gegl4 _ hs (by decide) rfl) smooth
    have act := reaches_step g _ Node.gegl4 _ Pad.input
      (spliced_source g _ _ _ _ hs (by decide) rfl) gegl4
    have gegl3 := reaches_step g _ _ _ Pad.input
      (spliced_source g _ _ Node.gegl3 _ hs (fun _ => rfl) rfl) act
    have lightchroma := reaches_step g _ _ _ Pad.aux
      (spliced_source g _ _ Node.lightchroma _ hs (fun _ => rfl) rfl) act
    have levels := reaches_step g _ Node.gegl3 _ Pad.input
      (spliced_source g _ _ Node.levels _ hs (by decide) rfl) gegl3
    have gegl2 := reaches_step g _ Node.levels _ Pad.input
      (spliced_source g _ _ Node.gegl2 _ hs (by decide) rfl) levels
    have dog := reaches_step g _ Node.gegl2 _ Pad.input
      (spliced_source g _ _ Node.dog _ hs (by decide) rfl) gegl2
    have gegl1 := reaches_step g _ Node.dog _ Pad.input
      (spliced_source g _ _ Node.gegl1 _ hs (by decide) rfl) dog
    have nr := reaches_step g _ Node.gegl1 _ Pad.input
      (spliced_source g _ _ Node.nr _ hs (by decide) rfl) gegl1
    have nop := reaches_step g _ Node.nr _ Pad.input
      (spliced_source g _ _ Node.nop _ hs (by decide) rfl) nr
    have input := reaches_step g _ Node.nop _ Pad.input
      (spliced_source g _ _ Node.input _ hs (by decide) rfl) nop
    cases n <;> first | assumption | exact absurd (hn (by decide)) (by decide)

theorem spliced_reachesPrimary_from_input (g : Graph Node) (x n : Node) (hs : Spliced g x)
    (hn : n ∈ blend_nodes → n = x) : ReachesPrimary g Node.input n := by
  have hx := hs.1
  simp only [blend_nodes, List.mem_cons, List.mem_singleton, List.not_mem_nil, or_false] at hx
  have input : ReachesPrimary g Node.input Node.input := Relation.ReflTransGen.refl
  rcases hx with rfl | rfl | rfl <;>
  · have nop : ReachesPrimary g Node.input Node.nop := Relation.ReflTransGen.tail input
      (spliced_source g _ Node.nop _ Pad.input hs (by decide) rfl)
    have lightchroma : ReachesPrimary g Node.input Node.lightchroma :=
      Relation.ReflTransGen.tail nop
        (spliced_source g _ Node.lightchroma _ Pad.input hs (by decide) rfl)
    have nr : ReachesPrimary g Node.input Node.nr := Relation.ReflTransGen.tail nop
      (spliced_source g _ Node.nr _ Pad.input hs (by decide) rfl)
    have gegl1 : ReachesPrimary g Node.input Node.gegl1 := Relation.ReflTransGen.tail nr
      (spliced_source g _ Node.gegl1 _ Pad.input hs (by decide) rfl)
    have dog : ReachesPrimary g Node.input Node.dog := Relation.ReflTransGen.tail gegl1
      (spliced_source g _ Node.dog _ Pad.input hs (by decide) rfl)
    have gegl2 : ReachesPrimary g Node.input Node.gegl2 := Relation.ReflTransGen.tail dog
      (spliced_source g _ Node.gegl2 _ Pad.input hs (by decide) rfl)
    have levels : ReachesPrimary g Node.input Node.levels := Relation.ReflTransGen.tail gegl2
      (spliced_source g _ Node.levels _ Pad.input hs (by decide) rfl)
    have gegl3 : ReachesPrimary g Node.input Node.gegl3 := Relation.ReflTransGen.tail levels
      (spliced_source g _ Node.gegl3 _ Pad.input hs (by decide) rfl)
    have act := Relation.ReflTransGen.tail gegl3
      (spliced_source g _ _ Node.gegl3 Pad.input hs (fun _ => rfl) rfl)
    have gegl4 : ReachesPrimary g Node.input Node.gegl4 := Relation.ReflTransGen.tail act
      (spliced_source g _ Node.gegl4 _ Pad.input hs (by decide) rfl)
    have smooth : ReachesPrimary g Node.input Node.smooth := Relation.ReflTransGen.tail gegl4
      (spliced_source g _ Node.smooth _ Pad.input hs (by decide) rfl)
    have mcb : ReachesPrimary g Node.input Node.mcb := Relation.ReflTransGen.tail smooth
      (spliced_source g _ Node.mcb _ Pad.input hs (by decide) rfl)
    have output : ReachesPrimary g Node.input Node.output := Relation.ReflTransGen.tail mcb
      (spliced_source g _ Node.output _ Pad.input hs (by decide) rfl)
    cases n <;> first | assumption | exact absurd (hn (by decide)) (by decide)

theorem spliced_reachesPrimary_output_iff (g : Graph Node) (x n : Node) (hs : Spliced g x) :
    ReachesPrimary g n Node.output ↔ n ∈ chain_with x := by
  have hx := hs.1
  simp only [blend_nodes, List.mem_cons, List.mem_singleton, List.not_mem_nil, or_false] at hx
  constructor
  · intro h
    refine mem_of_reachesPrimary_closed g (chain_with x) Node.output n (by simp [chain_with]) ?_ h
    intro b hb a hab
    have hbx : b ∈ blend_nodes → b = x := by
      rcases hx with rfl | rfl | rfl <;> revert hb <;> cases b <;> decide
    rw [hs.2.1 b Pad.input hbx] at hab
    rcases hx with rfl | rfl | rfl <;> revert hb hab <;> cases b <;> cases a <;> decide
  · intro h
    have o : ReachesPrimary g Node.output Node.output := Relation.ReflTransGen.refl
    rcases hx with rfl | rfl | rfl <;>
    · have mcb := reachesPrimary_step g _ Node.output _
        (spliced_source g _ _ Node.mcb _ hs (by decide) rfl) o
      have smooth := reachesPrimary_step g _ Node.mcb _
        (spliced_source g _ _ Node.smooth _ hs (by decide) rfl) mcb
      have gegl4 := reachesPrimary_step g _ Node.smooth _
        (spliced_source g _ _ Node.gegl4 _ hs (by decide) rfl) smooth
      have act := reachesPrimary_step g _ Node.gegl4 _
        (spliced_source g _ _ _ _ hs (by decide) rfl) gegl4
      have gegl3 := reachesPrimary_step g _ _ _
        (spliced_source g _ _ Node.gegl3 _ hs (fun _ => rfl) rfl) act
      have levels := reachesPrimary_step g _ Node.gegl3 _
        (spliced_source g _ _ Node.levels _ hs (by decide) rfl) gegl3
      have gegl2 := reachesPrimary_step g _ Node.levels _
        (spliced_source g _ _ Node.gegl2 _ hs (by decide) rfl) levels
      have dog := reachesPrimary_step g _ Node.gegl2 _
        (spliced_source g _ _ Node.dog _ hs (by decide) rfl) gegl2
      have gegl1 := reachesPrimary_step g _ Node.dog _
        (spliced_source g _ _ Node.gegl1 _ hs (by decide) rfl) dog
      have nr := reachesPrimary_step g _ Node.gegl1 _
        (spliced_source g _ _ Node.nr _ hs (by decide) rfl) gegl1
      have nop := reachesPrimary_step g _ Node.nr _
        (spliced_source g _ _ Node.nop _ hs (by decide) rfl) nr
      have input := reachesPrimary_step g _ Node.nop _
        (spliced_source g _ _ Node.input _ hs (by decide) rfl) nop
      revert h
      cases n <;> first | (intro _; assumption) | (intro hc; exact absurd hc (by decide))

theorem spliced_reaches_output_iff (g : Graph Node) (x n : Node) (hs : Spliced g x) :
    Reaches g n Node.output ↔ (n ∈ blend_nodes → n = x) := by
  constructor
  · intro h hn
    by_contra hne
    exact spliced_not_reaches g x n Node.output hs hn hne (by decide) h
  · exact spliced_reaches_output g x n hs

theorem spliced_sameFeeding (g h : Graph Node) (x : Node) (hg : Spliced g x)
    (hh : Spliced h x) : SameFeeding g h Node.output := by
  intro n
  constructor
  · rw [spliced_reaches_output_iff g x n hg, spliced_reaches_output_iff h x n hh]
  · intro hr p
    have hn := (spliced_reaches_output_iff g x n hg).mp hr
    rw [hg.2.1 n p hn, hh.2.1 n p hn]

theorem spliced_gegl4 (m : Int) (g : Graph Node) (hs : Spliced g (usethis m)) :
    g.source Node.gegl4 Pad.input = some (usethis m) := by
  rw [hs.2.1 Node.gegl4 Pad.input (fun hc => absurd hc (by decide))]
  exact (flat_relink_splice m Graph.empty).1

theorem flat_run_spliced (ms : List Int) (m : Int) :
    Spliced (run Flat.update_graph (Flat.attach GeglOperation.fresh) (ms ++ [m])).node.graph
      (usethis m) := by
  rw [flat_run_snoc_graph]
  exact flat_spliced m _ (flat_reachable ms).2

theorem nested_run_spliced (ms : List Int) (m : Int) :
    Spliced (run Nested.update_graph (Nested.attach GeglOperation.fresh) (ms ++ [m])).node.graph
      (usethis m) := by
  rw [nested_run_snoc_graph]
  exact nested_spliced m _ (nested_reachable ms).2

theorem in_range_double (p : Property) (lo hi v : ℚ) (hp : p.value_range = some (lo, hi)) :
    p.in_range (GValue.double v) = true ↔ lo ≤ v ∧ v ≤ hi := by
  simp [Property.in_range, hp, GValue.number]

theorem apply_levels (gegl : MetaNode Node) (lo hi : ℚ)
    (ht1 : redirect_targets gegl "in_low" = [(Node.levels, "in-low")])
    (ht2 : redirect_targets gegl "in_high" = [(Node.levels, "in-high")])
    (hlo : in_low.in_range (GValue.double lo) = true)
    (hhi : in_high.in_range (GValue.double hi) = true) :
    ∃ g1 g2, apply in_low gegl (GValue.double lo) = Except.ok g1 ∧
      apply in_high g1 (GValue.double hi) = Except.ok g2 ∧
      g2.props Node.levels "in-low" = some (GValue.double lo) ∧
      g2.props Node.levels "in-high" = some (GValue.double hi) := by
  refine ⟨_, _, by rw [apply, if_pos hlo], by rw [apply, if_pos hhi], ?_, ?_⟩
  · show write_targets (write_targets _ _ (redirect_targets gegl "in_low")) _
      (redirect_targets gegl "in_high") _ _ = _
    rw [ht1, ht2]
    simp [write_targets]
  · show write_targets (write_targets _ _ (redirect_targets gegl "in_low")) _
      (redirect_targets gegl "in_high") _ _ = _
    rw [ht1, ht2]
    simp [write_targets]

/-- C16: in both tone-mapping files `in_low` has range 0.002 to 0.010 and
default 0.007, `in_high` has range 0.006 to 0.030 and default 0.009, so the
defaults are in order; every value from 0.006 to 0.010 lies in both ranges,
and 0.010 for `in_low` with 0.006 for `in_high` are in range with the low
level above the high one; the redirect table sends `in_low` to in-low and
`in_high` to in-high of the node `levels` only, and applying two in-range
values leaves exactly these values there. -/
theorem levels_ranges_overlap (lo hi : ℚ)
    (hlo : in_low.in_range (GValue.double lo) = true)
    (hhi : in_high.in_range (GValue.double hi) = true) :
    (in_low ∈ Flat.properties ∧ in_high ∈ Flat.properties ∧
      in_low ∈ Nested.properties ∧ in_high ∈ Nested.properties) ∧
    (in_low.value_range = some (0.002, 0.010) ∧ in_high.value_range = some (0.006, 0.030) ∧
      in_low.default = GValue.double 0.007 ∧ in_high.default = GValue.double 0.009 ∧
      (0.007 : ℚ) < 0.009) ∧
    (∀ v : ℚ, 0.006 ≤ v ∧ v ≤ 0.010 ↔
      in_low.in_range (GValue.double v) = true ∧ in_high.in_range (GValue.double v) = true) ∧
    (in_low.in_range (GValue.double 0.010) = true ∧
      in_high.in_range (GValue.double 0.006) = true ∧ (0.006 : ℚ) < 0.010) ∧
    (redirect_targets (Flat.attach GeglOperation.fresh).node "in_low"
        = [(Node.levels, "in-low")] ∧
      redirect_targets (Flat.attach GeglOperation.fresh).node "in_high"
        = [(Node.levels, "in-high")] ∧
      redirect_targets (Nested.attach GeglOperation.fresh).node "in_low"
        = [(Node.levels, "in-low")] ∧
      redirect_targets (Nested.attach GeglOperation.fresh).node "in_high"
        = [(Node.levels, "in-high")]) ∧
    (∃ g1 g2, apply in_low (Flat.attach GeglOperation.fresh).node (GValue.double lo)
        = Except.ok g1 ∧
      apply in_high g1 (GValue.double hi) = Except.ok g2 ∧
      g2.props Node.levels "in-low" = some (GValue.double lo) ∧
      g2.props Node.levels "in-high" = some (GValue.double hi)) ∧
    (∃ g1 g2, apply in_low (Nested.attach GeglOperation.fresh).node (GValue.double lo)
        = Except.ok g1 ∧
      apply in_high g1 (GValue.double hi) = Except.ok g2 ∧
      g2.props Node.levels "in-low" = some (GValue.double lo) ∧
      g2.props Node.levels "in-high" = some (GValue.double hi)) := by
  have r1 : in_low.value_range = some (0.002, 0.010) := by
    simp [Property.value_range, in_low]
  have r2 : in_high.value_range = some (0.006, 0.030) := by
    simp [Property.value_range, in_high]
  have t1 : redirect_targets (Flat.attach GeglOperation.fresh).node "in_low"
      = [(Node.levels, "in-low")] := by decide
  have t2 : redirect_targets (Flat.attach GeglOperation.fresh).node "in_high"
      = [(Node.levels, "in-high")] := by decide
  have t3 : redirect_targets (Nested.attach GeglOperation.fresh).node "in_low"
      = [(Node.levels, "in-low")] := by decide
  have t4 : redirect_targets (Nested.attach GeglOperation.fresh).node "in_high"
      = [(Node.levels, "in-high")] := by decide
  refine ⟨?_, ⟨r1, r2, rfl, rfl, by norm_num⟩, ?_, ?_, ⟨t1, t2, t3, t4⟩,
    apply_levels _ lo hi t1 t2 hlo hhi, apply_levels _ lo hi t3 t4 hlo hhi⟩
  · simp [Flat.properties, Nested.properties, common_properties, in_low, in_high]
  · intro v
    rw [in_range_double _ _ _ v r1, in_range_double _ _ _ v r2]
    constructor
    · rintro ⟨h1, h2⟩
      exact ⟨⟨le_trans (by norm_num) h1, h2⟩, ⟨h1, le_trans h2 (by norm_num)⟩⟩
    · rintro ⟨⟨_, h2⟩, ⟨h1, _⟩⟩
      exact ⟨h1, h2⟩
  · rw [in_range_double _ _ _ _ r1, in_range_double _ _ _ _ r2]
    norm_num

/-- Witness for C16: `in_low` at 0.010 and `in_high` at 0.006, both in range,
reach the node `levels` of `src/photo2cartoon.c` with the low level above the
high one. -/
theorem levels_ranges_overlap_witness :
    in_low.in_range (GValue.double 0.010) = true ∧
    in_high.in_range (GValue.double 0.006) = true ∧
    ∃ g1 g2, apply in_low (Flat.attach GeglOperation.fresh).node (GValue.double 0.010)
        = Except.ok g1 ∧
      apply in_high g1 (GValue.double 0.006) = Except.ok g2 ∧
      g2.props Node.levels "in-low" = some (GValue.double 0.010) ∧
      g2.props Node.levels "in-high" = some (GValue.double 0.006) :=
  ⟨by simp [Property.in_range, Property.value_range, in_low, GValue.number]; norm_num,
   by simp [Property.in_range, Property.value_range, in_high, GValue.number]; norm_num,
   (levels_ranges_overlap 0.010 0.006
     (by simp [Property.in_range, Property.value_range, in_low, GValue.number]; norm_num)
     (by simp [Property.in_range, Property.value_range, in_high, GValue.number]; norm_num)
     ).2.2.2.2.2.1⟩

/-- C14: for every sequence of `blendmode` values ending with `m`, the graph
of `src/photo2cartoon.c` and the graph of `src/photo2cartoon/photo2cartoon.c`
after `attach` and that sequence of `update_graph` calls have the same
sub-graph feeding `output` (the same nodes reach `output` and they have the
same sources), with `nop` feeding the input of `lightchroma` in both; yet
`attach` makes links in the second file only, and `update_graph` makes the
link from `nop` to `lightchroma` in the first file only. -/
theorem variants_render_same_subgraph (ms : List Int) (m : Int) :
    SameFeeding
      (run Flat.update_graph (Flat.attach GeglOperation.fresh) (ms ++ [m])).node.graph
      (run Nested.update_graph (Nested.attach GeglOperation.fresh) (ms ++ [m])).node.graph
      Node.output ∧
    (run Flat.update_graph (Flat.attach GeglOperation.fresh) (ms ++ [m])).node.graph.source
      Node.lightchroma Pad.input = some Node.nop ∧
    (run Nested.update_graph (Nested.attach GeglOperation.fresh) (ms ++ [m])).node.graph.source
      Node.lightchroma Pad.input = some Node.nop ∧
    Reaches (run Flat.update_graph (Flat.attach GeglOperation.fresh) (ms ++ [m])).node.graph
      Node.lightchroma Node.output ∧
    Reaches (run Nested.update_graph (Nested.attach GeglOperation.fresh) (ms ++ [m])).node.graph
      Node.lightchroma Node.output ∧
    (Flat.attach GeglOperation.fresh).node.graph.source Node.lightchroma Pad.input = none ∧
    (Nested.attach GeglOperation.fresh).node.graph.source Node.lightchroma Pad.input
      = some Node.nop ∧
    (Flat.update_graph (Flat.attach GeglOperation.fresh)).node.graph.source
      Node.lightchroma Pad.input = some Node.nop ∧
    (Nested.update_graph (Flat.attach GeglOperation.fresh)).node.graph.source
      Node.lightchroma Pad.input = none := by
  have hf := flat_run_spliced ms m
  have hn := nested_run_spliced ms m
  have hl : Node.lightchroma ∈ blend_nodes → Node.lightchroma = usethis m :=
    fun hc => absurd hc (by decide)
  refine ⟨spliced_sameFeeding _ _ _ hf hn, ?_, ?_, ?_, ?_, rfl, rfl, rfl, rfl⟩
  · exact spliced_source _ _ _ _ _ hf hl
      (by rcases usethis_cases m with h | h | h <;> rw [h] <;> rfl)
  · exact spliced_source _ _ _ _ _ hn hl
      (by rcases usethis_cases m with h | h | h <;> rw [h] <;> rfl)
  · exact spliced_reaches_output _ _ _ hf hl
  · exact spliced_reaches_output _ _ _ hn hl

/-- C15: in either file, two sequences of `update_graph` calls after `attach`
that end with the same `blendmode` value `m` give the same sub-graph feeding
`output`; a blend node that `m` does not select is not in it, the input of
`gegl4` being fed by the selected node alone. -/
theorem rendered_subgraph_depends_on_last_mode (ms ms2 : List Int) (m : Int) (y : Node)
    (hy : y ∈ blend_nodes) (hne : y ≠ usethis m) :
    SameFeeding
      (run Flat.update_graph (Flat.attach GeglOperation.fresh) (ms ++ [m])).node.graph
      (run Flat.update_graph (Flat.attach GeglOperation.fresh) (ms2 ++ [m])).node.graph
      Node.output ∧
    SameFeeding
      (run Nested.update_graph (Nested.attach GeglOperation.fresh) (ms ++ [m])).node.graph
      (run Nested.update_graph (Nested.attach GeglOperation.fresh) (ms2 ++ [m])).node.graph
      Node.output ∧
    ¬ Reaches (run Flat.update_graph (Flat.attach GeglOperation.fresh) (ms ++ [m])).node.graph
      y Node.output ∧
    ¬ Reaches (run Nested.update_graph (Nested.attach GeglOperation.fresh) (ms ++ [m])).node.graph
      y Node.output ∧
    (run Flat.update_graph (Flat.attach GeglOperation.fresh) (ms ++ [m])).node.graph.source
      Node.gegl4 Pad.input = some (usethis m) ∧
    (run Nested.update_graph (Nested.attach GeglOperation.fresh) (ms ++ [m])).node.graph.source
      Node.gegl4 Pad.input = some (usethis m) ∧
    (∀ n p, (run Flat.update_graph (Flat.attach GeglOperation.fresh)
      (ms ++ [m])).node.graph.source n p ≠ some y) ∧
    (∀ n p, (run Nested.update_graph (Nested.attach GeglOperation.fresh)
      (ms ++ [m])).node.graph.source n p ≠ some y) := by
  have hf := flat_run_spliced ms m
  have hn := nested_run_spliced ms m
  exact ⟨spliced_sameFeeding _ _ _ hf (flat_run_spliced ms2 m),
    spliced_sameFeeding _ _ _ hn (nested_run_spliced ms2 m),
    spliced_not_reaches _ _ y _ hf hy hne (by decide),
    spliced_not_reaches _ _ y _ hn hy hne (by decide),
    spliced_gegl4 m _ hf, spliced_gegl4 m _ hn,
    fun n p h => hne (hf.2.2 n p y hy h),
    fun n p h => hne (hn.2.2 n p y hy h)⟩

/-- Witness for C15: the sequences Multiply, HardLight and Overlay, HardLight
with the inactive node `multiply`. -/
theorem rendered_subgraph_depends_on_last_mode_witness :
    Node.multiply ∈ blend_nodes ∧
    Node.multiply ≠ usethis GEGL_BLEND_MODE_TYPE_HARDLIGHT ∧
    SameFeeding
      (run Flat.update_graph (Flat.attach GeglOperation.fresh)
        ([GEGL_BLEND_MODE_TYPE_MULTIPLY] ++ [GEGL_BLEND_MODE_TYPE_HARDLIGHT])).node.graph
      (run Flat.update_graph (Flat.attach GeglOperation.fresh)
        ([GEGL_BLEND_MODE_TYPE_OVERLAY] ++ [GEGL_BLEND_MODE_TYPE_HARDLIGHT])).node.graph
      Node.output ∧
    ¬ Reaches (run Flat.update_graph (Flat.attach GeglOperation.fresh)
        ([GEGL_BLEND_MODE_TYPE_MULTIPLY] ++ [GEGL_BLEND_MODE_TYPE_HARDLIGHT])).node.graph
      Node.multiply Node.output :=
  ⟨by decide, by decide,
    (rendered_subgraph_depends_on_last_mode [GEGL_BLEND_MODE_TYPE_MULTIPLY]
      [GEGL_BLEND_MODE_TYPE_OVERLAY] GEGL_BLEND_MODE_TYPE_HARDLIGHT Node.multiply
      (by decide) (by decide)).1,
    (rendered_subgraph_depends_on_last_mode [GEGL_BLEND_MODE_TYPE_MULTIPLY]
      [GEGL_BLEND_MODE_TYPE_OVERLAY] GEGL_BLEND_MODE_TYPE_HARDLIGHT Node.multiply
      (by decide) (by decide)).2.2.1⟩

end Photo2Cartoon

/-! ## Wrap-effect graph -/

namespace PlasticWrapping

open Gegl

theorem attach_ranked : Ranked rank (attach GeglOperation.fresh).node.graph := by
  intro n p y h
  cases n <;> cases p <;> cases y <;>
    first
      | decide
      | exact absurd h (by decide)

theorem reachesPrimary_from_input (w : Node) :
    ReachesPrimary (attach GeglOperation.fresh).node.graph Node.input w := by
  cases w <;> exact reachesPrimary_of_mem_upstream _ 16 _ _ (by decide)

theorem reaches_output (w : Node) :
    Reaches (attach GeglOperation.fresh).node.graph w Node.output := by
  have o : Reaches (attach GeglOperation.fresh).node.graph Node.output Node.output :=
    Relation.ReflTransGen.refl
  have sl := reaches_step _ Node.sl Node.output _ Pad.input rfl o
  have mcb := reaches_step _ Node.mcb Node.sl _ Pad.input rfl sl
  have normal := reaches_step _ Node.normal Node.mcb _ Pad.input rfl mcb
  have over := reaches_step _ Node.over Node.normal _ Pad.input rfl normal
  have idref := reaches_step _ Node.idref Node.over _ Pad.input rfl over
  have input := reaches_step _ Node.input Node.idref _ Pad.input rfl idref
  have emboss2 := reaches_step _ Node.emboss2 Node.normal _ Pad.aux rfl normal
  have emboss := reaches_step _ Node.emboss Node.emboss2 _ Pad.input rfl emboss2
  have a2 := reaches_step _ Node.alphalockreplaceblendmode2 Node.emboss _ Pad.input rfl emboss
  have gaussian := reaches_step _ Node.gaussian Node.alphalockreplaceblendmode2 _ Pad.aux rfl a2
  have idref3 := reaches_step _ Node.idref3 Node.alphalockreplaceblendmode2 _ Pad.input rfl a2
  have a1 := reaches_step _ Node.alphalockreplaceblendmode Node.over _ Pad.aux rfl over
  have blur := reaches_step _ Node.blur Node.alphalockreplaceblendmode _ Pad.aux rfl a1
  have idref2 := reaches_step _ Node.idref2 Node.alphalockreplaceblendmode _ Pad.input rfl a1
  have nr := reaches_step _ Node.nr Node.idref2 _ Pad.input rfl idref2
  cases w <;> assumption

theorem reachesPrimary_output_iff (w : Node) :
    ReachesPrimary (attach GeglOperation.fresh).node.graph w Node.output ↔ w ∈ main_chain := by
  constructor
  · intro h
    refine mem_of_reachesPrimary_closed _ main_chain Node.output w (by decide) ?_ h
    intro b hb a hab
    cases b <;> simp [main_chain] at hb <;> cases a <;>
      first
        | decide
        | exact absurd hab (by decide)
  · intro h
    exact reachesPrimary_of_mem_upstream _ 16 _ _ (by revert h; cases w <;> decide)

/-- C12: after `attach` of `src/plastic_wrapping.c` the links are exactly the
listed fifteen primary and four aux links; the output of `idref` feeds exactly
the inputs of `over`, `nr` and `idref3`; the aux pad of each of the four blend
nodes is fed; and each aux source ends a primary sub-chain that starts at
`idref`. -/
theorem attach_link_set :
    (∀ a b p, (attach GeglOperation.fresh).node.graph.source b p = some a
      ↔ (a, b, p) ∈ spec_links) ∧
    (∀ b p, (attach GeglOperation.fresh).node.graph.source b p = some Node.idref
      ↔ (b, p) ∈ [(Node.over, Pad.input), (Node.nr, Pad.input), (Node.idref3, Pad.input)]) ∧
    (attach GeglOperation.fresh).node.graph.source Node.over Pad.aux
      = some Node.alphalockreplaceblendmode ∧
    (attach GeglOperation.fresh).node.graph.source Node.alphalockreplaceblendmode Pad.aux
      = some Node.blur ∧
    (attach GeglOperation.fresh).node.graph.source Node.normal Pad.aux
      = some Node.emboss2 ∧
    (attach GeglOperation.fresh).node.graph.source Node.alphalockreplaceblendmode2 Pad.aux
      = some Node.gaussian ∧
    PrimaryPath (attach GeglOperation.fresh).node.graph Node.idref
      Node.alphalockreplaceblendmode
      [Node.idref, Node.nr, Node.idref2, Node.alphalockreplaceblendmode] ∧
    PrimaryPath (attach GeglOperation.fresh).node.graph Node.idref Node.blur
      [Node.idref, Node.nr, Node.idref2, Node.blur] ∧
    PrimaryPath (attach GeglOperation.fresh).node.graph Node.idref Node.emboss2
      [Node.idref, Node.idref3, Node.alphalockreplaceblendmode2, Node.emboss, Node.emboss2] ∧
    PrimaryPath (attach GeglOperation.fresh).node.graph Node.idref Node.gaussian
      [Node.idref, Node.idref3, Node.gaussian] := by
  refine ⟨?_, ?_, rfl, rfl, rfl, rfl, ?_, ?_, ?_, ?_⟩
  · intro a b p
    cases b <;> cases p <;> cases a <;> decide
  · intro b p
    cases b <;> cases p <;> decide
  · refine ⟨rfl, rfl, ?_⟩
    simp only [List.chain'_cons, List.chain'_singleton, and_true]
    decide
  · refine ⟨rfl, rfl, ?_⟩
    simp only [List.chain'_cons, List.chain'_singleton, and_true]
    decide
  · refine ⟨rfl, rfl, ?_⟩
    simp only [List.chain'_cons, List.chain'_singleton, and_true]
    decide
  · refine ⟨rfl, rfl, ?_⟩
    simp only [List.chain'_cons, List.chain'_singleton, and_true]
    decide

theorem blurcontent_targets :
    redirect_targets (attach GeglOperation.fresh).node "blurcontent"
      = [(Node.blur, "std-dev-x"), (Node.blur, "std-dev-y")] := by
  decide

/-- C8: `blurcontent` has the declared range from 0.0 to 2.0, both bounds
included, so its default 0.0 is in range; the redirect table binds it to
exactly the two targets std-dev-x and std-dev-y of the node `blur`; and
applying any value of the range through the table leaves both targets equal
to that value. -/
theorem blurcontent_fan_out (v : ℚ) (hlo : 0.0 ≤ v) (hhi : v ≤ 2.0) :
    blurcontent ∈ properties ∧
    blurcontent.value_range = some (0.0, 2.0) ∧
    blurcontent.default = GValue.double 0.0 ∧
    blurcontent.in_range (GValue.double 0.0) = true ∧
    blurcontent.in_range (GValue.double v) = true ∧
    redirect_targets (attach GeglOperation.fresh).node "blurcontent"
      = [(Node.blur, "std-dev-x"), (Node.blur, "std-dev-y")] ∧
    ∃ gegl, apply blurcontent (attach GeglOperation.fresh).node (GValue.double v)
        = Except.ok gegl ∧
      gegl.props Node.blur "std-dev-x" = some (GValue.double v) ∧
      gegl.props Node.blur "std-dev-y" = some (GValue.double v) := by
  have hv : blurcontent.in_range (GValue.double v) = true := by
    simp [Property.in_range, Property.value_range, blurcontent, GValue.number]
    exact ⟨hlo, hhi⟩
  refine ⟨by simp [properties], by simp [Property.value_range, blurcontent], rfl, ?_, hv,
    blurcontent_targets, ?_⟩
  · simp [Property.in_range, Property.value_range, blurcontent, GValue.number]
    norm_num
  · refine ⟨_, by rw [apply, if_pos hv], ?_, ?_⟩
    · show write_targets _ _ (redirect_targets _ "blurcontent") _ _ = _
      rw [blurcontent_targets]
      simp [write_targets]
    · show write_targets _ _ (redirect_targets _ "blurcontent") _ _ = _
      rw [blurcontent_targets]
      simp [write_targets]

/-- Witness for C8: the value 0.0, the lower bound and the default. -/
theorem blurcontent_fan_out_witness :
    (0.0 : ℚ) ≤ 0.0 ∧ (0.0 : ℚ) ≤ 2.0 ∧
    ∃ gegl, apply blurcontent (attach GeglOperation.fresh).node (GValue.double 0.0)
        = Except.ok gegl ∧
      gegl.props Node.blur "std-dev-x" = some (GValue.double 0.0) ∧
      gegl.props Node.blur "std-dev-y" = some (GValue.double 0.0) :=
  ⟨le_refl _, by norm_num,
    (blurcontent_fan_out 0.0 (le_refl _) (by norm_num)).2.2.2.2.2.2⟩

end PlasticWrapping

/-- C9 (as stated, refuted): the property block of
`src/photo2cartoon/photo2cartoon.c` is not the nine-entry listing: it has
thirteen declarations and starts with the string property `string1`. -/
theorem nested_surface_differs :
    Photo2Cartoon.Nested.properties.length = 13 ∧
    (Photo2Cartoon.Nested.properties.map (fun p => p.name)).head? = some "string1" ∧
    Photo2Cartoon.Nested.properties.map (fun p => p.name)
      ≠ Photo2Cartoon.spec_surface.map (fun e => e.1) := by
  decide

/-- C9 (amended): the declared properties of `src/photo2cartoon.c` are exactly
the listing blendmode .. mcb of the specification, with the enum labels
HardLight, Multiply, Overlay and the later of two value_range lines taken as
the range; those of `src/plastic_wrapping.c` are exactly the listing opacity
.. smoothall; those of `src/photo2cartoon/photo2cartoon.c` are four string
properties string1 .. string4 followed by the same nine; and in all three
files every default lies inside its effective range. -/
theorem parameter_surface :
    Photo2Cartoon.Flat.properties.map Gegl.Property.listing = Photo2Cartoon.spec_surface ∧
    Photo2Cartoon.gegl_blend_mode_type2.map (fun e => e.2.2)
      = ["HardLight", "Multiply", "Overlay"] ∧
    PlasticWrapping.properties.map Gegl.Property.listing = PlasticWrapping.spec_surface ∧
    (Photo2Cartoon.Nested.properties.take 4).map (fun p => (p.name, p.kind))
      = [("string1", Gegl.PropKind.string), ("string2", Gegl.PropKind.string),
         ("string3", Gegl.PropKind.string), ("string4", Gegl.PropKind.string)] ∧
    (Photo2Cartoon.Nested.properties.drop 4).map Gegl.Property.listing
      = Photo2Cartoon.spec_surface ∧
    Photo2Cartoon.Flat.properties.all (fun p => p.in_range p.default) = true ∧
    Photo2Cartoon.Nested.properties.all (fun p => p.in_range p.default) = true ∧
    PlasticWrapping.properties.all (fun p => p.in_range p.default) = true := by
  have h1 : Photo2Cartoon.common_properties.map Gegl.Property.listing
      = Photo2Cartoon.spec_surface := by
    simp [Photo2Cartoon.common_properties, Photo2Cartoon.spec_surface,
      Gegl.Property.listing, Gegl.Property.value_range]
    norm_num
  have h2 : Photo2Cartoon.common_properties.all (fun p => p.in_range p.default) = true := by
    simp [Photo2Cartoon.common_properties, Gegl.Property.in_range,
      Gegl.Property.value_range, Gegl.GValue.number]
    norm_num
  refine ⟨h1, by decide, ?_, by decide, h1, h2, ?_, ?_⟩
  · simp [PlasticWrapping.properties, PlasticWrapping.spec_surface,
      PlasticWrapping.blurcontent, Gegl.Property.listing, Gegl.Property.value_range]
  · simp only [Photo2Cartoon.Nested.properties, List.all_append, h2, Bool.and_true]
    simp [Gegl.Property.in_range, Gegl.Property.value_range]
  · simp [PlasticWrapping.properties, PlasticWrapping.blurcontent, Gegl.Property.in_range,
      Gegl.Property.value_range, Gegl.GValue.number]
    norm_num

/-- C10: the link relation has no cycle, with primary and aux links taken
together and with primary links alone, in the graph `attach` of
`src/plastic_wrapping.c` builds and in every graph reached from `attach` by
any sequence of `update_graph` calls in `src/photo2cartoon.c` and in
`src/photo2cartoon/photo2cartoon.c`. -/
theorem link_relation_acyclic (ms : List Int) :
    Gegl.Acyclic (PlasticWrapping.attach PlasticWrapping.GeglOperation.fresh).node.graph ∧
    Gegl.AcyclicPrimary
      (PlasticWrapping.attach PlasticWrapping.GeglOperation.fresh).node.graph ∧
    Gegl.Acyclic (Photo2Cartoon.run Photo2Cartoon.Flat.update_graph
      (Photo2Cartoon.Flat.attach Photo2Cartoon.GeglOperation.fresh) ms).node.graph ∧
    Gegl.AcyclicPrimary (Photo2Cartoon.run Photo2Cartoon.Flat.update_graph
      (Photo2Cartoon.Flat.attach Photo2Cartoon.GeglOperation.fresh) ms).node.graph ∧
    Gegl.Acyclic (Photo2Cartoon.run Photo2Cartoon.Nested.update_graph
      (Photo2Cartoon.Nested.attach Photo2Cartoon.GeglOperation.fresh) ms).node.graph ∧
    Gegl.AcyclicPrimary (Photo2Cartoon.run Photo2Cartoon.Nested.update_graph
      (Photo2Cartoon.Nested.attach Photo2Cartoon.GeglOperation.fresh) ms).node.graph := by
  have hw := Gegl.acyclic_of_ranked _ _ PlasticWrapping.attach_ranked
  have hf := Gegl.acyclic_of_ranked _ _ (Photo2Cartoon.flat_reachable ms).2.2.2.2
  have hn := Gegl.acyclic_of_ranked _ _ (Photo2Cartoon.nested_reachable ms).2.2.2.2.2
  exact ⟨hw, Gegl.acyclicPrimary_of_acyclic _ hw, hf, Gegl.acyclicPrimary_of_acyclic _ hf,
    hn, Gegl.acyclicPrimary_of_acyclic _ hn⟩

/-- C11 (as stated, refuted): in the wrap-effect graph after `attach` the node
`nr` is reached from `input` along primary links but reaches `output` along
primary links from no side, and the same holds of `lightchroma` in the
tone-mapping graph of `src/photo2cartoon.c` after `attach` and one
`update_graph` call: both feed an aux pad only. -/
theorem aux_fed_nodes_lack_primary_path :
    Gegl.ReachesPrimary (PlasticWrapping.attach PlasticWrapping.GeglOperation.fresh).node.graph
      PlasticWrapping.Node.input PlasticWrapping.Node.nr ∧
    ¬ Gegl.ReachesPrimary
      (PlasticWrapping.attach PlasticWrapping.GeglOperation.fresh).node.graph
      PlasticWrapping.Node.nr PlasticWrapping.Node.output ∧
    Gegl.ReachesPrimary (Photo2Cartoon.run Photo2Cartoon.Flat.update_graph
        (Photo2Cartoon.Flat.attach Photo2Cartoon.GeglOperation.fresh)
        [Photo2Cartoon.GEGL_BLEND_MODE_TYPE_HARDLIGHT]).node.graph
      Photo2Cartoon.Node.input Photo2Cartoon.Node.lightchroma ∧
    ¬ Gegl.ReachesPrimary (Photo2Cartoon.run Photo2Cartoon.Flat.update_graph
        (Photo2Cartoon.Flat.attach Photo2Cartoon.GeglOperation.fresh)
        [Photo2Cartoon.GEGL_BLEND_MODE_TYPE_HARDLIGHT]).node.graph
      Photo2Cartoon.Node.lightchroma Photo2Cartoon.Node.output := by
  have hs := Photo2Cartoon.flat_run_spliced [] Photo2Cartoon.GEGL_BLEND_MODE_TYPE_HARDLIGHT
  refine ⟨PlasticWrapping.reachesPrimary_from_input _, ?_, ?_, ?_⟩
  · rw [PlasticWrapping.reachesPrimary_output_iff]
    decide
  · exact Photo2Cartoon.spliced_reachesPrimary_from_input _ _ _ hs (by decide)
  · intro h
    have hc := (Photo2Cartoon.spliced_reachesPrimary_output_iff _ _ _ hs).mp h
    exact absurd hc (by decide)

/-- C11 (amended): in the wrap-effect graph after `attach` every node, and in
the tone-mapping graph of either file after `attach` and a sequence of
`update_graph` calls ending with `m` every node other than the two blend nodes
that `m` does not select, is reached from `input` along primary links and
reaches `output` along primary and aux links; it reaches `output` along
primary links alone exactly when it lies on the primary chain. -/
theorem every_node_feeds_output (ms : List Int) (m : Int) (n : Photo2Cartoon.Node)
    (w : PlasticWrapping.Node)
    (hn : n ∈ Photo2Cartoon.blend_nodes → n = Photo2Cartoon.usethis m) :
    (Gegl.ReachesPrimary (PlasticWrapping.attach PlasticWrapping.GeglOperation.fresh).node.graph
        PlasticWrapping.Node.input w ∧
      Gegl.Reaches (PlasticWrapping.attach PlasticWrapping.GeglOperation.fresh).node.graph
        w PlasticWrapping.Node.output ∧
      (Gegl.ReachesPrimary (PlasticWrapping.attach PlasticWrapping.GeglOperation.fresh).node.graph
        w PlasticWrapping.Node.output ↔ w ∈ PlasticWrapping.main_chain)) ∧
    (Gegl.ReachesPrimary (Photo2Cartoon.run Photo2Cartoon.Flat.update_graph
        (Photo2Cartoon.Flat.attach Photo2Cartoon.GeglOperation.fresh) (ms ++ [m])).node.graph
        Photo2Cartoon.Node.input n ∧
      Gegl.Reaches (Photo2Cartoon.run Photo2Cartoon.Flat.update_graph
        (Photo2Cartoon.Flat.attach Photo2Cartoon.GeglOperation.fresh) (ms ++ [m])).node.graph
        n Photo2Cartoon.Node.output ∧
      (Gegl.ReachesPrimary (Photo2Cartoon.run Photo2Cartoon.Flat.update_graph
        (Photo2Cartoon.Flat.attach Photo2Cartoon.GeglOperation.fresh) (ms ++ [m])).node.graph
        n Photo2Cartoon.Node.output ↔ n ∈ Photo2Cartoon.chain_with (Photo2Cartoon.usethis m))) ∧
    (Gegl.ReachesPrimary (Photo2Cartoon.run Photo2Cartoon.Nested.update_graph
        (Photo2Cartoon.Nested.attach Photo2Cartoon.GeglOperation.fresh) (ms ++ [m])).node.graph
        Photo2Cartoon.Node.input n ∧
      Gegl.Reaches (Photo2Cartoon.run Photo2Cartoon.Nested.update_graph
        (Photo2Cartoon.Nested.attach Photo2Cartoon.GeglOperation.fresh) (ms ++ [m])).node.graph
        n Photo2Cartoon.Node.output ∧
      (Gegl.ReachesPrimary (Photo2Cartoon.run Photo2Cartoon.Nested.update_graph
        (Photo2Cartoon.Nested.attach Photo2Cartoon.GeglOperation.fresh) (ms ++ [m])).node.graph
        n Photo2Cartoon.Node.output ↔ n ∈ Photo2Cartoon.chain_with (Photo2Cartoon.usethis m))) := by
  have hf := Photo2Cartoon.flat_run_spliced ms m
  have hnest := Photo2Cartoon.nested_run_spliced ms m
  exact ⟨⟨PlasticWrapping.reachesPrimary_from_input w, PlasticWrapping.reaches_output w,
      PlasticWrapping.reachesPrimary_output_iff w⟩,
    ⟨Photo2Cartoon.spliced_reachesPrimary_from_input _ _ n hf hn,
      Photo2Cartoon.spliced_reaches_output _ _ n hf hn,
      Photo2Cartoon.spliced_reachesPrimary_output_iff _ _ n hf⟩,
    ⟨Photo2Cartoon.spliced_reachesPrimary_from_input _ _ n hnest hn,
      Photo2Cartoon.spliced_reaches_output _ _ n hnest hn,
      Photo2Cartoon.spliced_reachesPrimary_output_iff _ _ n hnest⟩⟩

/-- Witness for C11 (amended): `lightchroma` after the calls HardLight,
Multiply in `src/photo2cartoon.c` reaches `output`. -/
theorem every_node_feeds_output_witness :
    (Photo2Cartoon.Node.lightchroma ∈ Photo2Cartoon.blend_nodes →
      Photo2Cartoon.Node.lightchroma
        = Photo2Cartoon.usethis Photo2Cartoon.GEGL_BLEND_MODE_TYPE_MULTIPLY) ∧
    Gegl.Reaches (Photo2Cartoon.run Photo2Cartoon.Flat.update_graph
        (Photo2Cartoon.Flat.attach Photo2Cartoon.GeglOperation.fresh)
        ([Photo2Cartoon.GEGL_BLEND_MODE_TYPE_HARDLIGHT]
          ++ [Photo2Cartoon.GEGL_BLEND_MODE_TYPE_MULTIPLY])).node.graph
      Photo2Cartoon.Node.lightchroma Photo2Cartoon.Node.output :=
  ⟨by decide,
    (every_node_feeds_output [Photo2Cartoon.GEGL_BLEND_MODE_TYPE_HARDLIGHT]
      Photo2Cartoon.GEGL_BLEND_MODE_TYPE_MULTIPLY Photo2Cartoon.Node.lightchroma
      PlasticWrapping.Node.nr (by decide)).2.1.2.1⟩

/-- C13: the redirect table of `src/photo2cartoon.c` has the four keys string1,
string2, string3, string4 that its property block does not declare, so not
every redirect key is a declared property there; its targets are created
nodes and each declared property but blendmode is a redirect key. In
`src/photo2cartoon/photo2cartoon.c` and `src/plastic_wrapping.c` all three
conditions hold. -/
theorem redirect_table_well_formedness :
    Gegl.undeclared_keys Photo2Cartoon.Flat.properties
        (Photo2Cartoon.Flat.attach Photo2Cartoon.GeglOperation.fresh).node
      = ["string1", "string2", "string3", "string4"] ∧
    Gegl.keys_declared Photo2Cartoon.Flat.properties
        (Photo2Cartoon.Flat.attach Photo2Cartoon.GeglOperation.fresh).node = false ∧
    Gegl.targets_created
        (Photo2Cartoon.Flat.attach Photo2Cartoon.GeglOperation.fresh).node = true ∧
    Gegl.properties_redirected "blendmode" Photo2Cartoon.Flat.properties
        (Photo2Cartoon.Flat.attach Photo2Cartoon.GeglOperation.fresh).node = true ∧
    Gegl.keys_declared Photo2Cartoon.Nested.properties
        (Photo2Cartoon.Nested.attach Photo2Cartoon.GeglOperation.fresh).node = true ∧
    Gegl.targets_created
        (Photo2Cartoon.Nested.attach Photo2Cartoon.GeglOperation.fresh).node = true ∧
    Gegl.properties_redirected "blendmode" Photo2Cartoon.Nested.properties
        (Photo2Cartoon.Nested.attach Photo2Cartoon.GeglOperation.fresh).node = true ∧
    Gegl.keys_declared PlasticWrapping.properties
        (PlasticWrapping.attach PlasticWrapping.GeglOperation.fresh).node = true ∧
    Gegl.targets_created
        (PlasticWrapping.attach PlasticWrapping.GeglOperation.fresh).node = true ∧
    Gegl.properties_redirected "blendmode" PlasticWrapping.properties
        (PlasticWrapping.attach PlasticWrapping.GeglOperation.fresh).node = true := by
  refine ⟨?_, ?_, ?_, ?_, ?_, ?_, ?_, ?_, ?_, ?_⟩ <;> decide
